import Mathlib

/-!
# ORB_SLAM2 `System.cc`: orchestrator, map segments, persistence, trajectory export

A shallow embedding of `src/System.cc`.  The orchestrator's members and the
file-scope globals of the translation unit are the fields of one record that
every operation passes along.  Collaborators whose code lives in other files
(Tracking, LocalMapping, LoopClosing, Viewer, the archive library, `sqrt`) are
represented by what `System.cc` observes of them: the answers of their polled
predicates, the calls made to them (kept in a log), and the contents of files.
Poses are matrices over the rationals; the two distance computations, which the
source carries out in `double`, round every operation to binary64.
-/

namespace ORB_SLAM2

/-! ## Data model -/

/-- Sensor kinds, `System::eSensor`. -/
inductive eSensor where
  | MONOCULAR
  | STEREO
  | RGBD
  deriving DecidableEq, Repr

/-- Ways in which a call does not return normally: `exit(-1)`, an access with
undefined behaviour, or a loop that is still running when the recorded answers
of the polled worker end or when the step budget given to it is used up. -/
inductive Fault where
  | exit
  | undefined
  | blocked
  deriving DecidableEq, Repr

/-- A camera pose, `cv::Mat` of size 4x4, over exact rationals. -/
abbrev Pose := Matrix (Fin 4) (Fin 4) ℚ

/-- The fields of `KeyFrame` that `System.cc` reads or writes.  `Tcw` is what
`GetPose` returns and `Twc` what `GetPoseInverse` returns.  `mpParent` is the
spanning-tree parent pointer (`none` is the null pointer); pointers to keyframes
are addresses into the keyframe store of the map. -/
structure KeyFrame where
  mnId : Nat
  mnFrameId : Nat
  mTimeStamp : ℚ
  Tcw : Pose
  Twc : Pose
  mTcp : Pose
  mbBad : Bool
  mpParent : Option Nat
  hasVocabulary : Bool
  bowComputed : Bool

/-- The map: the keyframe objects it owns (by address) and the set of keyframe
pointers returned by `GetAllKeyFrames`. -/
structure Map where
  store : Nat → KeyFrame
  mspKeyFrames : List Nat

/-- The recognition database: an uninterpreted serialized record and whether a
vocabulary is attached. -/
structure KeyFrameDatabase where
  record : List Nat
  hasVocabulary : Bool
  deriving DecidableEq

/-- The fields of `Tracking` that `System.cc` reads or writes. -/
structure Tracking where
  addr : Nat
  mbOnlyTracking : Bool
  mState : Int
  mlRelativeFramePoses : List Pose
  mlpReferences : List Nat
  mlFrameTimes : List ℚ
  mlbLost : List Bool

/-- The map drawer: its identity and the camera pose it currently holds
(`none` is the empty matrix). -/
structure MapDrawer where
  addr : Nat
  mCameraPose : Option Pose

/-- Predicates of the worker threads that the orchestrator polls. -/
inductive Poll where
  | lmIsStopped
  | viewerIsFinished
  | lmIsFinished
  | lcIsFinished
  | lcIsRunningGBA
  deriving DecidableEq, Repr

/-- Calls that leave the orchestrator, in the order they are made. -/
inductive Event where
  | lmRequestStop
  | lmRelease
  | informOnlyTracking (flag : Bool)
  | trackerReset
  | grabImage (sensor : eSensor)
  | saveMap (file : String)
  | saveKeyFrameTrajectoryTUM (file : String)
  | loadMap (file : String) (opened : Bool)
  | lmRequestFinish
  | lcRequestFinish
  | viewerRequestFinish
  | bindToContext
  | polled (p : Poll) (answer : Bool)
  deriving DecidableEq, Repr

/-- Future answers of the polled predicates, one list per predicate, consumed
from the front each time the predicate is called. -/
structure Answers where
  lmIsStopped : List Bool
  viewerIsFinished : List Bool
  lmIsFinished : List Bool
  lcIsFinished : List Bool
  lcIsRunningGBA : List Bool
  deriving DecidableEq

/-- The orchestrator: the globals of `System.cc`, the members of `System`, the
static counter `Frame::nNextId`, and the environment (files, worker answers,
allocation counter, call log). -/
structure System where
  fileName : String
  numOfMaps : Nat
  distLoad : ℚ
  settings : String
  bUseViewerA : Bool
  fileTrajectory : String
  mSensor : eSensor
  is_save_map : Bool
  mapfile : String
  mpVocabulary : Nat
  mpKeyFrameDatabase : KeyFrameDatabase
  mpMap : Map
  mpFrameDrawer : Nat
  mpMapDrawer : MapDrawer
  mpTracker : Tracking
  mpLocalMapper : Nat
  mpLoopCloser : Nat
  mpViewer : Option Nat
  mbReset : Bool
  mbActivateLocalizationMode : Bool
  mbDeactivateLocalizationMode : Bool
  mTrackingState : Int
  nNextId : Nat
  nextAddr : Nat
  disk : String → Option (Map × KeyFrameDatabase)
  writable : String → Bool
  answers : Answers
  log : List Event

namespace System

/-- Append one call to the log. -/
def emit (s : System) (e : Event) : System :=
  { s with log := s.log ++ [e] }

/-- Modelled from the spec: `Tracking::InformOnlyTracking` (Tracking.cc is not part
of the sources) puts the Tracking Engine in or out of tracking-only mode, the
mode being the member `mbOnlyTracking` that `System.cc` reads. -/
def InformOnlyTracking (s : System) (flag : Bool) : System :=
  { s with mpTracker := { s.mpTracker with mbOnlyTracking := flag },
           log := s.log ++ [Event.informOnlyTracking flag] }

/-- A loop `while(!worker->predicate()) sleep` on one polled predicate: answers
are consumed up to and including the first `true`; the result is the answers
that remain and the polls made. -/
def pollUntil (p : Poll) : List Bool → Except Fault (List Bool × List Event)
  | [] => Except.error Fault.blocked
  | true :: rest => Except.ok (rest, [Event.polled p true])
  | false :: rest =>
    match pollUntil p rest with
    | Except.ok (r, evs) => Except.ok (r, Event.polled p false :: evs)
    | Except.error f => Except.error f

/-- `System::ActivateLocalizationMode`. -/
def ActivateLocalizationMode (s : System) : System :=
  { s with mbActivateLocalizationMode := true }

/-- `System::DeactivateLocalizationMode`. -/
def DeactivateLocalizationMode (s : System) : System :=
  { s with mbDeactivateLocalizationMode := true }

/-- `System::Reset`. -/
def Reset (s : System) : System :=
  { s with mbReset := true }

/-- The block "Check mode change", identical in `TrackStereo`, `TrackRGBD` and
`TrackMonocular`. -/
def checkModeChange (s : System) : Except Fault System := do
  let s1 ←
    if s.mbActivateLocalizationMode then
      let a := s.emit Event.lmRequestStop
      match pollUntil Poll.lmIsStopped a.answers.lmIsStopped with
      | Except.error f => Except.error f
      | Except.ok (rest, evs) =>
        let b := { a with answers := { a.answers with lmIsStopped := rest },
                          log := a.log ++ evs }
        let c := b.InformOnlyTracking true
        Except.ok { c with mbActivateLocalizationMode := false }
    else Except.ok s
  if s1.mbDeactivateLocalizationMode then
    let a := s1.InformOnlyTracking false
    let b := a.emit Event.lmRelease
    Except.ok { b with mbDeactivateLocalizationMode := false }
  else Except.ok s1

/-- The text written by `sprintf(buf, "%i%s", n, base)`. -/
def segmentName (n : Nat) (base : String) : String :=
  toString n ++ base

/-- The text written by `sprintf(buf, "%iKeyFrameTrajectory.txt", n)`. -/
def trajectoryName (n : Nat) : String :=
  toString n ++ "KeyFrameTrajectory.txt"

/-- `System::SaveMap`: the process exits when the file cannot be opened for
writing; otherwise the file holds the two records, Map then KeyFrame Database,
exactly as they are in memory. -/
def SaveMap (s : System) (filename : String) : Except Fault System :=
  if s.writable filename then
    Except.ok { s with
      disk := fun f => if f = filename then some (s.mpMap, s.mpKeyFrameDatabase) else s.disk f,
      log := s.log ++ [Event.saveMap filename] }
  else Except.error Fault.exit

/-- `System::SaveKeyFrameTrajectoryTUM`, as seen by its callers: the call with its
target file name.  What the call writes is `SaveKeyFrameTrajectoryTUM_files`. -/
def SaveKeyFrameTrajectoryTUM (s : System) (filename : String) : System :=
  s.emit (Event.saveKeyFrameTrajectoryTUM filename)

/-- Modelled from the spec: `KeyFrame::lId` (KeyFrame.h is not part of the
sources) orders keyframes by creation id; `sort(vpKFs.begin(), vpKFs.end(),
KeyFrame::lId)` is an ascending sort of the pointers by `mnId`. -/
def sortById (m : Map) (vpKFs : List Nat) : List Nat :=
  vpKFs.insertionSort (fun a b => (m.store a).mnId ≤ (m.store b).mnId)

/-- The loop of `LoadMap` that computes the largest `mnFrameId`, starting from
`unsigned long mnFrameId = 0`. -/
def maxFrameId (m : Map) (vpKFS : List Nat) : Nat :=
  vpKFS.foldl (fun acc p => if (m.store p).mnFrameId > acc then (m.store p).mnFrameId else acc) 0

/-! ### Binary64 arithmetic of the distance computations

The distances of `LoadMap` and `TrackMonocular` are computed in `double` from the
`float` entries of a pose.  A `double` is represented by the rational it stands
for; every operation returns the exact result rounded to the nearest binary64
value, ties to even.  Magnitudes are taken within the normal range of binary64,
which the squares and sums of binary32 values never leave. -/

/-- Rounding of a rational to the nearest integer, ties to the even one. -/
def roundHalfEven (m : ℚ) : ℤ :=
  if m - ⌊m⌋ < 1 / 2 then ⌊m⌋
  else if 1 / 2 < m - ⌊m⌋ then ⌊m⌋ + 1
  else if ⌊m⌋ % 2 = 0 then ⌊m⌋ else ⌊m⌋ + 1

/-- Rounding to binary64: with `e` the binary exponent of `q`, the result is the
multiple of `2 ^ (e - 52)` nearest to `q`, ties to the even multiple. -/
def roundDouble (q : ℚ) : ℚ :=
  if q = 0 then 0
  else roundHalfEven (q / 2 ^ (Int.log 2 |q| - 52)) * 2 ^ (Int.log 2 |q| - 52)

/-- The correctly rounded binary64 square root (`sqrt` of the C library): with `e`
the binary exponent of the root, the multiple of `2 ^ (e - 52)` nearest to the
root, found as half the integer square root of four times the scaled argument,
rounded up. -/
def sqrtDouble (q : ℚ) : ℚ :=
  if q ≤ 0 then 0
  else
    ((Nat.sqrt ⌊4 * (q / (2 ^ (Int.log 2 q / 2 - 52) * 2 ^ (Int.log 2 q / 2 - 52)))⌋₊ + 1) / 2 : ℕ)
      * 2 ^ (Int.log 2 q / 2 - 52)

/-- The `double` literal `0.1`. -/
def tenthDouble : ℚ :=
  3602879701896397 / 2 ^ 55

/-- The values of binary32: an integer of fewer than 25 bits times a power of two
within the exponent range. -/
def isBinary32 (q : ℚ) : Prop :=
  ∃ m e : ℤ, |m| < 2 ^ 24 ∧ -149 ≤ e ∧ e ≤ 104 ∧ q = m * 2 ^ e

/-- The expression `sqrt(pow(T(0,3),2)+pow(T(1,3),2)+pow(T(2,3),2))` on the `float`
entries of the pose: each `pow` and each `+` is a `double` operation, and
`sqrt` is the library function, passed in. -/
def translationNorm (sqrt : ℚ → ℚ) (T : Pose) : ℚ :=
  sqrt (roundDouble (roundDouble (roundDouble (T 0 3 ^ 2) + roundDouble (T 1 3 ^ 2))
    + roundDouble (T 2 3 ^ 2)))

/-- The value `distCurrent` of `TrackMonocular`: the translation norm plus the bias
`0.1`, a `double` addition. -/
def distCurrent (sqrt : ℚ → ℚ) (cameraPose : Pose) : ℚ :=
  roundDouble (translationNorm sqrt cameraPose + tenthDouble)

/-- `System::LoadMap`.  Returns `false` without touching anything when the file
cannot be opened.  Otherwise both records are read, the vocabulary is attached,
the keyframes are sorted by id, the pose of `vpKFS[index-1]` gives `distLoad`
(an out-of-range access when there is no keyframe), every keyframe gets the
vocabulary and its bag of words, and `Frame::nNextId` is set. -/
def LoadMap (sqrt : ℚ → ℚ) (s : System) (filename : String) : Except Fault (Bool × System) :=
  match s.disk filename with
  | none => Except.ok (false, s.emit (Event.loadMap filename false))
  | some (map, db) =>
    let vpKFS := sortById map map.mspKeyFrames
    match vpKFS.getLast? with
    | none => Except.error Fault.undefined
    | some p =>
      let last := (map.store p).Tcw
      let store1 : Nat → KeyFrame := fun a =>
        if a ∈ vpKFS then { map.store a with hasVocabulary := true, bowComputed := true }
        else map.store a
      Except.ok (true, { s with
        mpMap := { map with store := store1 },
        mpKeyFrameDatabase := { db with hasVocabulary := true },
        distLoad := translationNorm sqrt last,
        nNextId := maxFrameId map vpKFS,
        log := s.log ++ [Event.loadMap filename true] })

/-- What a call of `Tracking::GrabImage*` leaves behind for the orchestrator: the
returned pose (`none` is the empty matrix), the tracking state, and the pose
handed to the map drawer when tracking succeeded. -/
structure GrabResult where
  Tcw : Option Pose
  mState : Int
  drawerPose : Option Pose

/-- The call `mpTracker->GrabImage*(...)` followed by the snapshot of the tracking
state taken under `mMutexState`. -/
def grab (s : System) (g : GrabResult) : System :=
  { s with
    mpTracker := { s.mpTracker with mState := g.mState },
    mpMapDrawer := { s.mpMapDrawer with
      mCameraPose := match g.drawerPose with
        | some p => some p
        | none => s.mpMapDrawer.mCameraPose },
    mTrackingState := g.mState,
    log := s.log ++ [Event.grabImage s.mSensor] }

/-- The block "Check reset" of `TrackStereo` and of `TrackRGBD`. -/
def checkReset (s : System) : System :=
  if s.mbReset then { s.emit Event.trackerReset with mbReset := false } else s

/-- `System::TrackStereo`. -/
def TrackStereo (s : System) (g : GrabResult) : Except Fault (Option Pose × System) :=
  if s.mSensor ≠ eSensor.STEREO then Except.error Fault.exit
  else
    match checkModeChange s with
    | Except.error f => Except.error f
    | Except.ok s1 => Except.ok (g.Tcw, grab (checkReset s1) g)

/-- `System::TrackRGBD`. -/
def TrackRGBD (s : System) (g : GrabResult) : Except Fault (Option Pose × System) :=
  if s.mSensor ≠ eSensor.RGBD then Except.error Fault.exit
  else
    match checkModeChange s with
    | Except.error f => Except.error f
    | Except.ok s1 => Except.ok (g.Tcw, grab (checkReset s1) g)

/-- The block "Check reset" of `TrackMonocular`: everything, the reset of the
Tracking Engine and the clearing of the flag included, is inside
`if(!mpTracker->mbOnlyTracking)`. -/
def checkResetMonocular (s : System) : Except Fault System :=
  if s.mbReset then
    if !s.mpTracker.mbOnlyTracking then
      match SaveMap s s.fileName with
      | Except.error f => Except.error f
      | Except.ok a =>
        let b := { a with fileTrajectory := trajectoryName a.numOfMaps }
        let c := SaveKeyFrameTrajectoryTUM b b.fileTrajectory
        let d := { c with numOfMaps := c.numOfMaps + 1 }
        let e := { d with fileName := segmentName d.numOfMaps d.mapfile }
        Except.ok { e.emit Event.trackerReset with mbReset := false }
    else Except.ok s
  else Except.ok s

/-- Modelled from the spec: the constructor of `Tracking` (Tracking.cc is not part
of the sources).  A new Tracking Engine is not in tracking-only mode (the map
swap has to re-enable the mode on it) and has an empty frame history. -/
def newTracking (addr : Nat) : Tracking :=
  { addr := addr, mbOnlyTracking := false, mState := 0,
    mlRelativeFramePoses := [], mlpReferences := [], mlFrameTimes := [], mlbLost := [] }

/-- The objects built by `new` after a successful load in `TrackMonocular`: map
drawer, Tracking Engine, Local Mapping, Loop Closing and Viewer, followed by
`InformOnlyTracking(true)` on the new Tracking Engine. -/
def rebuildSession (s : System) : System :=
  let a := s.nextAddr
  let t : System := { s with
    mpMapDrawer := { addr := a, mCameraPose := none },
    mpTracker := newTracking (a + 1),
    mpLocalMapper := a + 2,
    mpLoopCloser := a + 3,
    mpViewer := some (a + 4),
    nextAddr := a + 5 }
  t.InformOnlyTracking true

/-- The block "Check for end of map, if so, load next map" of `TrackMonocular`. -/
def checkEndOfMap (sqrt : ℚ → ℚ) (s : System) : Except Fault System :=
  if s.mpTracker.mbOnlyTracking then
    match s.mpMapDrawer.mCameraPose with
    | none => Except.ok s
    | some cameraPose =>
      if distCurrent sqrt cameraPose > s.distLoad then
        let a := { s with numOfMaps := s.numOfMaps + 1 }
        let b := { a with fileName := segmentName a.numOfMaps a.mapfile }
        match LoadMap sqrt b b.fileName with
        | Except.error f => Except.error f
        | Except.ok (true, c) => Except.ok (rebuildSession c)
        | Except.ok (false, c) => Except.ok c
      else Except.ok s
  else Except.ok s

/-- `System::TrackMonocular`. -/
def TrackMonocular (sqrt : ℚ → ℚ) (s : System) (g : GrabResult) :
    Except Fault (Option Pose × System) :=
  if s.mSensor ≠ eSensor.MONOCULAR then Except.error Fault.exit
  else
    match checkModeChange s with
    | Except.error f => Except.error f
    | Except.ok s1 =>
      match checkResetMonocular s1 with
      | Except.error f => Except.error f
      | Except.ok s2 =>
        match checkEndOfMap sqrt (grab s2 g) with
        | Except.error f => Except.error f
        | Except.ok s3 => Except.ok (g.Tcw, s3)

/-- The loop `while(!mpLocalMapper->isFinished() || !mpLoopCloser->isFinished() ||
mpLoopCloser->isRunningGBA()) sleep`.  The three predicates are called left to
right and `||` stops at the first operand that holds, so a round calls
`isFinished` of Loop Closing only after Local Mapping answered `true`, and
`isRunningGBA` only after both did.  The result is the unused answers of the
three predicates and the polls made. -/
def waitWorkers : List Bool → List Bool → List Bool →
    Except Fault (List Bool × List Bool × List Bool × List Event)
  | [], _, _ => Except.error Fault.blocked
  | false :: lm, lc, gba =>
    match waitWorkers lm lc gba with
    | Except.ok (a, b, c, evs) => Except.ok (a, b, c, Event.polled Poll.lmIsFinished false :: evs)
    | Except.error f => Except.error f
  | true :: _, [], _ => Except.error Fault.blocked
  | true :: lm, false :: lc, gba =>
    match waitWorkers lm lc gba with
    | Except.ok (a, b, c, evs) =>
      Except.ok (a, b, c, Event.polled Poll.lmIsFinished true ::
        Event.polled Poll.lcIsFinished false :: evs)
    | Except.error f => Except.error f
  | true :: _, true :: _, [] => Except.error Fault.blocked
  | true :: lm, true :: lc, true :: gba =>
    match waitWorkers lm lc gba with
    | Except.ok (a, b, c, evs) =>
      Except.ok (a, b, c, Event.polled Poll.lmIsFinished true ::
        Event.polled Poll.lcIsFinished true :: Event.polled Poll.lcIsRunningGBA true :: evs)
    | Except.error f => Except.error f
  | true :: lm, true :: lc, false :: gba =>
    Except.ok (lm, lc, gba, [Event.polled Poll.lmIsFinished true,
      Event.polled Poll.lcIsFinished true, Event.polled Poll.lcIsRunningGBA false])

/-- The last part of `Shutdown`, after the wait loops: rebinding of the rendering
context and the guarded persistence. -/
def persistOnShutdown (s : System) : Except Fault System :=
  let a := if s.mpViewer.isSome then s.emit Event.bindToContext else s
  if a.is_save_map then
    if !a.mpTracker.mbOnlyTracking then
      if !a.mpMap.mspKeyFrames.isEmpty then
        match SaveMap a a.fileName with
        | Except.error f => Except.error f
        | Except.ok b =>
          let c := { b with fileTrajectory := trajectoryName b.numOfMaps }
          Except.ok (SaveKeyFrameTrajectoryTUM c c.fileTrajectory)
      else Except.ok a
    else Except.ok a
  else Except.ok a

/-- `System::Shutdown`. -/
def Shutdown (s : System) : Except Fault System :=
  let a := (s.emit Event.lmRequestFinish).emit Event.lcRequestFinish
  let viewerDone : Except Fault System :=
    if a.mpViewer.isSome then
      let b := a.emit Event.viewerRequestFinish
      match pollUntil Poll.viewerIsFinished b.answers.viewerIsFinished with
      | Except.error f => Except.error f
      | Except.ok (rest, evs) =>
        Except.ok { b with answers := { b.answers with viewerIsFinished := rest },
                           log := b.log ++ evs }
    else Except.ok a
  match viewerDone with
  | Except.error f => Except.error f
  | Except.ok c =>
    match waitWorkers c.answers.lmIsFinished c.answers.lcIsFinished c.answers.lcIsRunningGBA with
    | Except.error f => Except.error f
    | Except.ok (lm, lc, gba, evs) =>
      persistOnShutdown { c with
        answers := { c.answers with lmIsFinished := lm, lcIsFinished := lc, lcIsRunningGBA := gba },
        log := c.log ++ evs }

/-- `has_suffix`: `str.find(suffix, str.size() - suffix.size())` can only match at
the position where the suffix would start (the subtraction wraps to a position
past the end when `str` is the shorter one, and nothing is found). -/
def has_suffix (str suffix : String) : Bool :=
  suffix.data.isSuffixOf str.data

/-- What the constructor finds outside the process: whether the settings file
opens, its node "Map.mapfile" (`none` when empty), the outcome of the two
vocabulary loaders, the files, and the future answers of the workers. -/
structure Env where
  settingsOpened : Bool
  mapfilen : Option String
  loadFromTextFile : String → Bool
  loadFromBinaryFile : String → Bool
  disk : String → Option (Map × KeyFrameDatabase)
  writable : String → Bool
  answers : Answers

/-- A keyframe object with all fields zero. -/
def blankKeyFrame : KeyFrame :=
  { mnId := 0, mnFrameId := 0, mTimeStamp := 0, Tcw := 0, Twc := 0, mTcp := 0,
    mbBad := false, mpParent := none, hasVocabulary := false, bowComputed := false }

set_option linter.unusedVariables false in
/-- The constructor `System::System`.  The member `is_save_map` is initialised with
the constant `true` in the initialiser list; the argument `is_save_map_` is not
used. -/
def construct (sqrt : ℚ → ℚ) (env : Env) (strVocFile strSettingsFile : String)
    (sensor : eSensor) (bUseViewer : Bool) ( is_save_map_ : Bool) : Except Fault System :=
  if !env.settingsOpened then Except.error Fault.exit
  else
    let mapfile : String := match env.mapfilen with
      | some m => m
      | none => ""
    let fileName0 : String := match env.mapfilen with
      | some _ => segmentName 1 mapfile
      | none => ""
    let bVocLoad : Bool :=
      if has_suffix strVocFile ".txt" then env.loadFromTextFile strVocFile
      else if has_suffix strVocFile ".bin" then env.loadFromBinaryFile strVocFile
      else false
    if !bVocLoad then Except.error Fault.exit
    else
      let s0 : System :=
        { fileName := fileName0, numOfMaps := 1, distLoad := 0,
          settings := strSettingsFile, bUseViewerA := bUseViewer, fileTrajectory := "",
          mSensor := sensor, is_save_map := true, mapfile := mapfile,
          mpVocabulary := 0,
          mpKeyFrameDatabase := { record := [], hasVocabulary := true },
          mpMap := { store := fun _ => blankKeyFrame, mspKeyFrames := [] },
          mpFrameDrawer := 1,
          mpMapDrawer := { addr := 2, mCameraPose := none },
          mpTracker := newTracking 3,
          mpLocalMapper := 4, mpLoopCloser := 5,
          mpViewer := if bUseViewer then some 6 else none,
          mbReset := false, mbActivateLocalizationMode := false,
          mbDeactivateLocalizationMode := false,
          mTrackingState := 0, nNextId := 0, nextAddr := 7,
          disk := env.disk, writable := env.writable, answers := env.answers, log := [] }
      if !mapfile.isEmpty then
        match LoadMap sqrt s0 s0.fileName with
        | Except.error f => Except.error f
        | Except.ok (true, s1) => Except.ok { s1 with fileName := segmentName s1.numOfMaps s1.mapfile }
        | Except.ok (false, s1) => Except.ok s1
      else Except.ok s0

/-! ## Trajectory export -/

/-- The loop `while(pKF->isBad()) { Trw = Trw*pKF->mTcp; pKF = pKF->GetParent(); }`
with a budget of loop tests.  A null parent of a culled keyframe makes the next
test dereference a null pointer. -/
def walkToLive (m : Map) : Nat → Nat → Pose → Except Fault (Nat × Pose)
  | 0, _, _ => Except.error Fault.blocked
  | fuel + 1, pKF, Trw =>
    if (m.store pKF).mbBad then
      match (m.store pKF).mpParent with
      | none => Except.error Fault.undefined
      | some parent => walkToLive m fuel parent (Trw * (m.store pKF).mTcp)
    else Except.ok (pKF, Trw)

/-- The matrix `Tcw.rowRange(0,3).colRange(0,3).t()`. -/
def rotationTransposed (Tcw : Pose) : Matrix (Fin 3) (Fin 3) ℚ :=
  fun i j => Tcw j.castSucc i.castSucc

/-- The vector `-Rwc*Tcw.rowRange(0,3).col(3)`. -/
def cameraCentre (Tcw : Pose) : Fin 3 → ℚ :=
  -((rotationTransposed Tcw).mulVec (fun i => Tcw i.castSucc 3))

/-- The pose `(*lit) * (Trw * pKF->GetPose() * Two)` of one frame: walk from the
reference keyframe to a keyframe that is not culled, then compose. -/
def framePose (m : Map) (fuel : Nat) (Two lit : Pose) (lRit : Nat) : Except Fault Pose :=
  match walkToLive m fuel lRit 1 with
  | Except.error f => Except.error f
  | Except.ok (pKF, Trw) => Except.ok (lit * (Trw * (m.store pKF).Tcw * Two))

/-- One line of the TUM trajectory file: timestamp, camera centre, quaternion. -/
structure TUMLine where
  time : ℚ
  twc : Fin 3 → ℚ
  q : List ℚ

/-- One line of the KITTI trajectory file: rotation and camera centre, printed
row by row. -/
structure KITTILine where
  Rwc : Matrix (Fin 3) (Fin 3) ℚ
  twc : Fin 3 → ℚ

/-- The `for` loop of `SaveTrajectoryTUM` over the four lists of the Tracking
Engine, advanced together; a list that ends before the list of relative poses
makes its iterator run past the end. -/
def tumLoop (toQuaternion : Matrix (Fin 3) (Fin 3) ℚ → List ℚ) (m : Map) (fuel : Nat)
    (Two : Pose) : List Pose → List Nat → List ℚ → List Bool → Except Fault (List TUMLine)
  | [], _, _, _ => Except.ok []
  | lit :: poses, lRit :: refs, lT :: times, lbL :: lost =>
    if lbL then tumLoop toQuaternion m fuel Two poses refs times lost
    else
      match framePose m fuel Two lit lRit with
      | Except.error f => Except.error f
      | Except.ok Tcw =>
        match tumLoop toQuaternion m fuel Two poses refs times lost with
        | Except.error f => Except.error f
        | Except.ok rest =>
          Except.ok ({ time := lT, twc := cameraCentre Tcw,
                       q := toQuaternion (rotationTransposed Tcw) } :: rest)
  | _ :: _, _, _, _ => Except.error Fault.undefined

/-- The `for` loop of `SaveTrajectoryKITTI` over the lists of relative poses,
reference keyframes and timestamps; the list of lost flags is not read. -/
def kittiLoop (m : Map) (fuel : Nat) (Two : Pose) :
    List Pose → List Nat → List ℚ → Except Fault (List KITTILine)
  | [], _, _ => Except.ok []
  | lit :: poses, lRit :: refs, _ :: times =>
    match framePose m fuel Two lit lRit with
    | Except.error f => Except.error f
    | Except.ok Tcw =>
      match kittiLoop m fuel Two poses refs times with
      | Except.error f => Except.error f
      | Except.ok rest =>
        Except.ok ({ Rwc := rotationTransposed Tcw, twc := cameraCentre Tcw } :: rest)
  | _ :: _, _, _ => Except.error Fault.undefined

/-- `System::SaveTrajectoryTUM`: the lines sent to the output stream, `none` when
the function returns before opening it (monocular sensor).  `vpKFs[0]` is an
out-of-range access when the map has no keyframe.  `fuel` bounds the loop tests
of each walk to a live keyframe. -/
def SaveTrajectoryTUM (toQuaternion : Matrix (Fin 3) (Fin 3) ℚ → List ℚ) (fuel : Nat)
    (s : System) : Except Fault (Option (List TUMLine)) :=
  if s.mSensor = eSensor.MONOCULAR then Except.ok none
  else
    match (sortById s.mpMap s.mpMap.mspKeyFrames).head? with
    | none => Except.error Fault.undefined
    | some first =>
      match tumLoop toQuaternion s.mpMap fuel (s.mpMap.store first).Twc
          s.mpTracker.mlRelativeFramePoses s.mpTracker.mlpReferences
          s.mpTracker.mlFrameTimes s.mpTracker.mlbLost with
      | Except.error f => Except.error f
      | Except.ok lines => Except.ok (some lines)

/-- `System::SaveTrajectoryKITTI`: the lines sent to the output stream, `none` when
the function returns before opening it (monocular sensor). -/
def SaveTrajectoryKITTI (fuel : Nat) (s : System) : Except Fault (Option (List KITTILine)) :=
  if s.mSensor = eSensor.MONOCULAR then Except.ok none
  else
    match (sortById s.mpMap s.mpMap.mspKeyFrames).head? with
    | none => Except.error Fault.undefined
    | some first =>
      match kittiLoop s.mpMap fuel (s.mpMap.store first).Twc
          s.mpTracker.mlRelativeFramePoses s.mpTracker.mlpReferences
          s.mpTracker.mlFrameTimes with
      | Except.error f => Except.error f
      | Except.ok lines => Except.ok (some lines)

/-! ## Sequences of mode requests and frames -/

/-- The operations on the mode flags: the two requests and the processing of one
frame. -/
inductive Op where
  | activate
  | deactivate
  | frame
  deriving DecidableEq, Repr

/-- One operation; a frame runs the block "Check mode change". -/
def step (s : System) : Op → Except Fault System
  | Op.activate => Except.ok s.ActivateLocalizationMode
  | Op.deactivate => Except.ok s.DeactivateLocalizationMode
  | Op.frame => checkModeChange s

/-- A finite sequence of operations, left to right. -/
def run (s : System) : List Op → Except Fault System
  | [] => Except.ok s
  | op :: ops =>
    match step s op with
    | Except.error f => Except.error f
    | Except.ok t => run t ops

/-- The most recent request in a sequence of operations, if any: what the
specification compares the mode with. -/
def lastRequest : List Op → Option Op
  | [] => none
  | op :: ops =>
    match lastRequest ops with
    | some r => some r
    | none => if op = Op.frame then none else some op

/-! ## Concrete states used as examples -/

/-- An environment in which everything opens and every worker answers `true` to
its first poll. -/
def demoEnv : Env :=
  { settingsOpened := true, mapfilen := some "map.bin",
    loadFromTextFile := fun _ => true, loadFromBinaryFile := fun _ => true,
    disk := fun _ => none, writable := fun _ => true,
    answers := { lmIsStopped := [true, true], viewerIsFinished := [true, true],
                 lmIsFinished := [true, true], lcIsFinished := [true, true],
                 lcIsRunningGBA := [false, false] } }

/-- The state right after construction in `demoEnv` for the given sensor, without
viewer: no map file exists yet, so the session is fresh. -/
def demo (sensor : eSensor) : System :=
  { fileName := "1map.bin", numOfMaps := 1, distLoad := 0,
    settings := "settings.yaml", bUseViewerA := false, fileTrajectory := "",
    mSensor := sensor, is_save_map := true, mapfile := "map.bin",
    mpVocabulary := 0,
    mpKeyFrameDatabase := { record := [], hasVocabulary := true },
    mpMap := { store := fun _ => blankKeyFrame, mspKeyFrames := [] },
    mpFrameDrawer := 1,
    mpMapDrawer := { addr := 2, mCameraPose := none },
    mpTracker := { addr := 3, mbOnlyTracking := false, mState := 0,
                   mlRelativeFramePoses := [], mlpReferences := [],
                   mlFrameTimes := [], mlbLost := [] },
    mpLocalMapper := 4, mpLoopCloser := 5, mpViewer := none,
    mbReset := false, mbActivateLocalizationMode := false,
    mbDeactivateLocalizationMode := false,
    mTrackingState := 0, nNextId := 0, nextAddr := 7,
    disk := demoEnv.disk, writable := demoEnv.writable, answers := demoEnv.answers,
    log := [Event.loadMap "1map.bin" false] }

/-- A grab that returns no pose and hands none to the map drawer. -/
def noPose : GrabResult :=
  { Tcw := none, mState := 0, drawerPose := none }

/-! ## Observations on the call log -/

/-- Calls made by the block "Check mode change". -/
def isModeEvent : Event → Bool
  | Event.lmRequestStop => true
  | Event.lmRelease => true
  | Event.informOnlyTracking _ => true
  | Event.polled Poll.lmIsStopped _ => true
  | _ => false

/-- Number of calls of `Tracking::Reset` made so far. -/
def resetCount (s : System) : Nat :=
  s.log.count Event.trackerReset

/-- The entry point of each sensor kind. -/
def track (sqrt : ℚ → ℚ) (entry : eSensor) (s : System) (g : GrabResult) :
    Except Fault (Option Pose × System) :=
  match entry with
  | eSensor.MONOCULAR => TrackMonocular sqrt s g
  | eSensor.STEREO => TrackStereo s g
  | eSensor.RGBD => TrackRGBD s g

/-- Calls of `LoadMap`. -/
def isLoadEvent : Event → Bool
  | Event.loadMap _ _ => true
  | _ => false

/-- Number of calls of `LoadMap` made so far. -/
def loadAttempts (s : System) : Nat :=
  s.log.countP isLoadEvent

/-- A pose with the given translation column and identity rotation. -/
def poseAt (x y z : ℚ) : Pose :=
  fun i j =>
    if j = 3 then (if i = 0 then x else if i = 1 then y else if i = 2 then z else 1)
    else if i = j then 1 else 0

/-- A monocular system in tracking-only mode whose recorded extent is 5; no map
file exists for any segment index. -/
def localizing : System :=
  { demo eSensor.MONOCULAR with
    distLoad := 5,
    mpTracker := { (demo eSensor.MONOCULAR).mpTracker with mbOnlyTracking := true } }

/-- Polls of a worker predicate. -/
def isPoll : Event → Bool
  | Event.polled _ _ => true
  | _ => false

/-- Writes of the persistence step: `SaveMap` and `SaveKeyFrameTrajectoryTUM`. -/
def isPersistEvent : Event → Bool
  | Event.saveMap _ => true
  | Event.saveKeyFrameTrajectoryTUM _ => true
  | _ => false

/-- The persistence actions in a log, in order. -/
def persistActions (log : List Event) : List Event :=
  log.filter isPersistEvent

/-- The round of polls on which the wait loop of `Shutdown` is left. -/
def finalRound : List Event :=
  [Event.polled Poll.lmIsFinished true, Event.polled Poll.lcIsFinished true,
   Event.polled Poll.lcIsRunningGBA false]

/-- One keyframe, created from frame 7, at distance 5 from the origin. -/
def keyFrame7 : KeyFrame :=
  { blankKeyFrame with mnId := 0, mnFrameId := 7, Tcw := poseAt 3 4 0, Twc := poseAt (-3) (-4) 0 }

/-- A map holding the single keyframe `keyFrame7` at address 0. -/
def oneKeyFrameMap : Map :=
  { store := fun a => if a = 0 then keyFrame7 else blankKeyFrame, mspKeyFrames := [0] }

/-- A stereo system in full SLAM mode whose map holds one keyframe; both workers
are finished at every poll and `isRunningGBA` answers true, true, true, false. -/
def mapped : System :=
  { demo eSensor.STEREO with
    mpMap := oneKeyFrameMap,
    answers := { lmIsStopped := [], viewerIsFinished := [],
                 lmIsFinished := [true, true, true, true],
                 lcIsFinished := [true, true, true, true],
                 lcIsRunningGBA := [true, true, true, false] } }

/-- What `Shutdown` writes once the workers have finished, read off the state it is
called in: `SaveMap` on the current map file and `SaveKeyFrameTrajectoryTUM` on
the trajectory file of the current segment index when the member `is_save_map`
is set, the Tracking Engine is not in tracking-only mode and the map has a
keyframe; nothing otherwise. -/
def shutdownWrites (s : System) : List Event :=
  if s.is_save_map = true ∧ s.mpTracker.mbOnlyTracking = false ∧ s.mpMap.mspKeyFrames ≠ [] then
    [Event.saveMap s.fileName, Event.saveKeyFrameTrajectoryTUM (trajectoryName s.numOfMaps)]
  else []

/-- An environment in which the file of segment 1 holds `oneKeyFrameMap`. -/
def savedEnv : Env :=
  { demoEnv with
    disk := fun f =>
      if f = "1map.bin" then some (oneKeyFrameMap, { record := [], hasVocabulary := false })
      else none }

/-- A stereo system in full SLAM mode whose map holds one keyframe, with two rounds
of answers from finished workers. -/
def mappedIdle : System :=
  { demo eSensor.STEREO with mpMap := oneKeyFrameMap }

/-- The keyframe creation ids of a map in ascending order: the sequence the
round-trip law compares. -/
def sortedIds (m : Map) : List Nat :=
  (sortById m m.mspKeyFrames).map (fun p => (m.store p).mnId)

/-- The recorded extent of a map as the specification defines it: the norm of the
translation of the pose of the keyframe with the highest creation id, computed
as `translationNorm` does; `none` when the map has no keyframe. -/
def recordedExtent (sqrt : ℚ → ℚ) (m : Map) : Option ℚ :=
  (sortById m m.mspKeyFrames).getLast?.map (fun p => translationNorm sqrt (m.store p).Tcw)

/-- The keyframe at address `p` reaches a keyframe that is not culled after `k`
parent links, every keyframe passed on the way being culled. -/
inductive ReachesLive (m : Map) : Nat → Nat → Prop where
  | live (p : Nat) (h : (m.store p).mbBad = false) : ReachesLive m p 0
  | up (p q k : Nat) (hbad : (m.store p).mbBad = true) (hparent : (m.store p).mpParent = some q)
      (hq : ReachesLive m q k) : ReachesLive m p (k + 1)

/-- A system of the given sensor kind whose map holds one live keyframe and whose
Tracking Engine has recorded one frame, not lost, with that keyframe as its
reference. -/
def oneFrame (sensor : eSensor) : System :=
  { demo sensor with
    mpMap := oneKeyFrameMap,
    mpTracker := { (demo sensor).mpTracker with
      mlRelativeFramePoses := [1], mlpReferences := [0], mlFrameTimes := [0],
      mlbLost := [false] } }

/-- The state `mappedIdle` after one call of `Shutdown`. -/
def shutDownOnce : System :=
  match Shutdown mappedIdle with
  | Except.ok t => t
  | Except.error _ => mappedIdle

/-! ## Keyframe trajectory export -/

/-- Modelled from the spec: `KeyFrame::GetCameraCenter` (KeyFrame.cc is not part of
the sources) gives the camera-centre translation of the keyframe pose. -/
def GetCameraCenter (kf : KeyFrame) : Fin 3 → ℚ :=
  cameraCentre kf.Tcw

/-- One line of the keyframe trajectory text file: timestamp, camera centre,
quaternion of the transposed rotation. -/
structure KeyFrameLine where
  time : ℚ
  t : Fin 3 → ℚ
  q : List ℚ

/-- An entry of the structured side file written through `cv::FileStorage`: a named
3-vector or a named integer. -/
inductive SideEntry where
  | vector (name : String) (value : Fin 3 → ℚ)
  | integer (name : String) (value : Int)

/-- The text written by `sprintf(keyN, "KeyFrame%i", i)`. -/
def keyFrameRecordName (i : Nat) : String :=
  "KeyFrame" ++ toString i

/-- The text written by `sprintf(keyF, "%iKeyFrameTrajectory.yaml", n)`. -/
def sideFileName (n : Nat) : String :=
  toString n ++ "KeyFrameTrajectory.yaml"

/-- The `for` loop of `SaveKeyFrameTrajectoryTUM` from index `i` on: a culled
keyframe is skipped by `continue`, which still advances `i`; any other keyframe
gets the record named after `i` in the side file and one line in the text
file. -/
def keyFrameLoop (toQuaternion : Matrix (Fin 3) (Fin 3) ℚ → List ℚ) (m : Map) :
    Nat → List Nat → List KeyFrameLine × List SideEntry
  | _, [] => ([], [])
  | i, pKF :: rest =>
    if (m.store pKF).mbBad then keyFrameLoop toQuaternion m (i + 1) rest
    else
      let out := keyFrameLoop toQuaternion m (i + 1) rest
      ({ time := (m.store pKF).mTimeStamp, t := GetCameraCenter (m.store pKF),
         q := toQuaternion (rotationTransposed (m.store pKF).Tcw) } :: out.1,
       SideEntry.vector (keyFrameRecordName i) (GetCameraCenter (m.store pKF)) :: out.2)

/-- What `System::SaveKeyFrameTrajectoryTUM` writes. -/
structure KeyFrameTrajectoryFiles where
  textLines : List KeyFrameLine
  sideFile : String
  sideEntries : List SideEntry

/-- `System::SaveKeyFrameTrajectoryTUM`, its output: the lines sent to the text
stream, and the side file with its entries, the last of which is
"NumberOfKeyFrames" with the value `int num = vpKFs.size()`. -/
def SaveKeyFrameTrajectoryTUM_files (toQuaternion : Matrix (Fin 3) (Fin 3) ℚ → List ℚ)
    (s : System) : KeyFrameTrajectoryFiles :=
  let vpKFs := sortById s.mpMap s.mpMap.mspKeyFrames
  let out := keyFrameLoop toQuaternion s.mpMap 0 vpKFs
  { textLines := out.1,
    sideFile := sideFileName s.numOfMaps,
    sideEntries := out.2 ++ [SideEntry.integer "NumberOfKeyFrames" (vpKFs.length : Int)] }

/-- The "KeyFrame<i>" records among the entries of a side file. -/
def keyFrameRecords (entries : List SideEntry) : List SideEntry :=
  entries.filter (fun e => match e with
    | SideEntry.vector _ _ => true
    | SideEntry.integer _ _ => false)

/-- The values written under the name "NumberOfKeyFrames" in a side file. -/
def numberOfKeyFramesValues : List SideEntry → List Int
  | [] => []
  | SideEntry.integer name value :: rest =>
    if name = "NumberOfKeyFrames" then value :: numberOfKeyFramesValues rest
    else numberOfKeyFramesValues rest
  | SideEntry.vector _ _ :: rest => numberOfKeyFramesValues rest

/-- The keyframes of the map that are not culled, in ascending order of creation
id: the keyframes the export emits. -/
def liveSorted (m : Map) : List Nat :=
  (sortById m m.mspKeyFrames).filter (fun p => !(m.store p).mbBad)

/-- A second keyframe, created from frame 9 and culled. -/
def keyFrame9 : KeyFrame :=
  { blankKeyFrame with mnId := 1, mnFrameId := 9, mTimeStamp := 1, mbBad := true,
                       mpParent := some 0, mTcp := poseAt 1 0 0 }

/-- A map whose keyframe set holds the live keyframe `keyFrame7` at address 0 and the
culled keyframe `keyFrame9`, child of the first, at address 1. -/
def culledMap : Map :=
  { store := fun a => if a = 0 then keyFrame7 else if a = 1 then keyFrame9 else blankKeyFrame,
    mspKeyFrames := [1, 0] }

/-- A stereo system on `culledMap` with a history of one frame, not lost, whose
reference keyframe is the culled one. -/
def culledSystem : System :=
  { demo eSensor.STEREO with
    mpMap := culledMap,
    mpTracker := { (demo eSensor.STEREO).mpTracker with
      mlRelativeFramePoses := [poseAt 0 0 2], mlpReferences := [1], mlFrameTimes := [1],
      mlbLost := [false] } }

/-- The parent chain of a reference keyframe: `chain` lists the culled keyframes
`k0, ..., k(m-1)` met from `pKF` on, each the spanning-tree parent of the one
before, and `live`, the parent of the last, is the first keyframe that is not
culled.  With an empty chain `pKF` itself is `live`. -/
def parentChain (m : Map) : Nat → List Nat → Nat → Prop
  | pKF, [], live => pKF = live ∧ (m.store live).mbBad = false
  | pKF, k :: ks, live =>
    pKF = k ∧ (m.store k).mbBad = true ∧
      ∃ parent, (m.store k).mpParent = some parent ∧ parentChain m parent ks live

/-- The product `mTcp(k0) * ... * mTcp(k(m-1))` of the parent-relative transforms
along a chain, the identity for the empty chain. -/
def chainTransform (m : Map) (chain : List Nat) : Pose :=
  (chain.map (fun k => (m.store k).mTcp)).prod

/-- The pose of a frame as the amended reconstruction law writes it: relative pose,
then the parent-relative transforms of the culled keyframes of the chain `c.1`,
then the pose of the live keyframe `c.2`, then `Two`. -/
def reconstructedPose (m : Map) (Two lit : Pose) (c : List Nat × Nat) : Pose :=
  lit * chainTransform m c.1 * (m.store c.2).Tcw * Two

/-- The binary64 value nearest to 4.9. -/
def nearestDouble49 : ℚ :=
  2758454771764429 / 2 ^ 49

/-- The computed translation norm above which `distCurrent` exceeds 5.0: the sum
with the bias has to pass the midpoint between 5.0 and the next binary64
value. -/
def swapThreshold : ℚ :=
  5 + 1 / 2 ^ 51 - tenthDouble

/-- A grab that returns the pose `P` and hands it to the map drawer. -/
def grabPose (P : Pose) : GrabResult :=
  { Tcw := some P, mState := 2, drawerPose := some P }

/-- A pose whose translation has binary32 entries and a Euclidean norm just above
4.9, while the norm computed in binary64 is the binary64 value nearest to
4.9. -/
def boundaryPose : Pose :=
  poseAt (10276044 / 2 ^ 21) (16608558 / 2 ^ 33) (9114466 / 2 ^ 41)

/-- The binary32 value nearest to 4.9, written `4.9f`. -/
def float49 : ℚ :=
  10276045 / 2 ^ 21

end System

/-! # Lemmas and theorems -/

namespace System

/-! ## Polling loops and the mode check -/


theorem pollUntil_ok (p : Poll) (l : List Bool) (h : true ∈ l) :
    ∃ rest evs, pollUntil p l = Except.ok (rest, evs) := by
  induction l with
  | nil => simp at h
  | cons b l ih =>
    cases b with
    | true => exact ⟨l, _, rfl⟩
    | false =>
      have h1 : true ∈ l := by simpa using h
      obtain ⟨rest, evs, he⟩ := ih h1
      exact ⟨rest, Event.polled p false :: evs, by simp [pollUntil, he]⟩

theorem checkModeChange_spec (s : System)
    (h : s.mbActivateLocalizationMode = true → true ∈ s.answers.lmIsStopped) :
    ∃ t, checkModeChange s = Except.ok t ∧
      t.mpTracker.mbOnlyTracking =
        (if s.mbDeactivateLocalizationMode = true then false
         else if s.mbActivateLocalizationMode = true then true
         else s.mpTracker.mbOnlyTracking) ∧
      t.mbActivateLocalizationMode = false ∧ t.mbDeactivateLocalizationMode = false := by
  unfold checkModeChange
  cases ha : s.mbActivateLocalizationMode with
  | false =>
    cases hd : s.mbDeactivateLocalizationMode <;>
      simp [bind, Except.bind, hd, ha, InformOnlyTracking, emit]
  | true =>
    obtain ⟨rest, evs, he⟩ := pollUntil_ok Poll.lmIsStopped _ (h ha)
    cases hd : s.mbDeactivateLocalizationMode <;>
      simp [bind, Except.bind, hd, ha, InformOnlyTracking, emit, he]

theorem run_append (s : System) (xs ys : List Op) :
    run s (xs ++ ys) =
      match run s xs with
      | Except.error f => Except.error f
      | Except.ok t => run t ys := by
  induction xs generalizing s with
  | nil => rfl
  | cons x xs ih =>
    simp only [List.cons_append, run]
    cases step s x with
    | error f => rfl
    | ok t => exact ih t

theorem run_requests (s : System) (reqs : List Op) (h : Op.frame ∉ reqs) :
    ∃ t, run s reqs = Except.ok t ∧
      (t.mbActivateLocalizationMode = true ↔
        (s.mbActivateLocalizationMode = true ∨ Op.activate ∈ reqs)) ∧
      (t.mbDeactivateLocalizationMode = true ↔
        (s.mbDeactivateLocalizationMode = true ∨ Op.deactivate ∈ reqs)) ∧
      t.mpTracker = s.mpTracker ∧ t.answers = s.answers := by
  induction reqs generalizing s with
  | nil => exact ⟨s, rfl, by simp, by simp, rfl, rfl⟩
  | cons r reqs ih =>
    have h1 : Op.frame ∉ reqs := fun hm => h (List.mem_cons_of_mem _ hm)
    cases r with
    | frame => simp at h
    | activate =>
      obtain ⟨t, ht, ha, hd, htr, han⟩ := ih s.ActivateLocalizationMode h1
      refine ⟨t, by simpa [run, step] using ht, ?_, ?_, htr, han⟩
      · simp [ha, ActivateLocalizationMode]
      · simp [hd, ActivateLocalizationMode]
    | deactivate =>
      obtain ⟨t, ht, ha, hd, htr, han⟩ := ih s.DeactivateLocalizationMode h1
      refine ⟨t, by simpa [run, step] using ht, ?_, ?_, htr, han⟩
      · simp [ha, DeactivateLocalizationMode]
      · simp [hd, DeactivateLocalizationMode]


theorem pollUntil_events (p : Poll) (l rest : List Bool) (evs : List Event)
    (h : pollUntil p l = Except.ok (rest, evs)) :
    ∀ e ∈ evs, ∃ b, e = Event.polled p b := by
  induction l generalizing evs with
  | nil => simp [pollUntil] at h
  | cons b l ih =>
    cases b with
    | true =>
      simp only [pollUntil, Except.ok.injEq, Prod.mk.injEq] at h
      obtain ⟨-, rfl⟩ := h
      intro e he
      exact ⟨true, by simpa using he⟩
    | false =>
      simp only [pollUntil] at h
      cases hr : pollUntil p l with
      | error f => simp [hr] at h
      | ok v =>
        obtain ⟨r, ev1⟩ := v
        simp only [hr, Except.ok.injEq, Prod.mk.injEq] at h
        obtain ⟨rfl, rfl⟩ := h
        intro e he
        rcases List.mem_cons.mp he with rfl | he
        · exact ⟨false, rfl⟩
        · exact ih ev1 hr e he

theorem checkModeChange_eq (s t : System) (h : checkModeChange s = Except.ok t) :
    ∃ rest evs, (∀ e ∈ evs, isModeEvent e = true) ∧
      t = { s with
        mpTracker := { s.mpTracker with mbOnlyTracking :=
          if s.mbDeactivateLocalizationMode = true then false
          else if s.mbActivateLocalizationMode = true then true
          else s.mpTracker.mbOnlyTracking },
        answers := { s.answers with lmIsStopped := rest },
        log := s.log ++ evs,
        mbActivateLocalizationMode := false,
        mbDeactivateLocalizationMode := false } := by
  unfold checkModeChange at h
  cases ha : s.mbActivateLocalizationMode with
  | false =>
    cases hd : s.mbDeactivateLocalizationMode with
    | false =>
      simp [bind, Except.bind, hd, ha] at h
      subst h
      refine ⟨s.answers.lmIsStopped, [], by simp, ?_⟩
      cases s
      simp_all
    | true =>
      simp [bind, Except.bind, hd, ha, InformOnlyTracking, emit] at h
      subst h
      refine ⟨s.answers.lmIsStopped, [Event.informOnlyTracking false, Event.lmRelease], by simp [isModeEvent], ?_⟩
      cases s
      simp_all
  | true =>
    cases hp : pollUntil Poll.lmIsStopped s.answers.lmIsStopped with
    | error f => simp [bind, Except.bind, ha, emit, hp] at h
    | ok v =>
      obtain ⟨rest, evs⟩ := v
      have hev := pollUntil_events _ _ _ _ hp
      cases hd : s.mbDeactivateLocalizationMode with
      | false =>
        simp [bind, Except.bind, hd, ha, InformOnlyTracking, emit, hp] at h
        subst h
        refine ⟨rest, Event.lmRequestStop :: (evs ++ [Event.informOnlyTracking true]), ?_, ?_⟩
        · intro e he
          simp only [List.mem_cons, List.mem_append, List.mem_singleton, List.mem_nil_iff,
            or_false] at he
          rcases he with rfl | he | rfl
          · rfl
          · obtain ⟨b, rfl⟩ := hev e he
            rfl
          · rfl
        · cases s
          simp_all
      | true =>
        simp [bind, Except.bind, hd, ha, InformOnlyTracking, emit, hp] at h
        subst h
        refine ⟨rest, Event.lmRequestStop :: (evs ++
          [Event.informOnlyTracking true, Event.informOnlyTracking false, Event.lmRelease]), ?_, ?_⟩
        · intro e he
          simp only [List.mem_cons, List.mem_append, List.mem_singleton, List.mem_nil_iff,
            or_false] at he
          rcases he with rfl | he | rfl | rfl | rfl
          · rfl
          · obtain ⟨b, rfl⟩ := hev e he
            rfl
          · rfl
          · rfl
          · rfl
        · cases s
          simp_all

/-- The example state `demo` is what the constructor returns in `demoEnv`, for every
sensor kind and either value of the persistence argument. -/
theorem demo_constructed (sq : ℚ → ℚ) (sensor : eSensor) (saveArg : Bool) :
    construct sq demoEnv "voc.txt" "settings.yaml" sensor false saveArg
      = Except.ok (demo sensor) :=
  rfl

/-! ## C1: tracking-only mode after a frame -/

/-- C1 (as stated, refuted): `DeactivateLocalizationMode` then
`ActivateLocalizationMode` then one frame.  The most recent request is
"activate", yet the frame leaves the Tracking Engine out of tracking-only mode,
because the frame applies a pending activation before a pending deactivation. -/
theorem C1_both_pending_counterexample :
    lastRequest [Op.deactivate, Op.activate] = some Op.activate ∧
    ∃ t, run (demo eSensor.STEREO) [Op.deactivate, Op.activate, Op.frame] = Except.ok t ∧
      t.mpTracker.mbOnlyTracking = false :=
  ⟨by decide, _, rfl, rfl⟩

/-- C1 (amended): after any sequence of operations `pre` that returns, followed by
requests `reqs` and one frame, the Tracking Engine is out of tracking-only mode
if a deactivation is pending or among `reqs` (in whatever order the requests
came), else in tracking-only mode if an activation is pending or among `reqs`,
else in the mode it had; the frame returns provided Local Mapping answers
"stopped" when an activation has to be applied, and both flags are then clear. -/
theorem C1_mode_after_frame (s m : System) (pre reqs : List Op)
    (hpre : run s pre = Except.ok m) (hreq : Op.frame ∉ reqs)
    (hstop : (m.mbActivateLocalizationMode = true ∨ Op.activate ∈ reqs) →
      true ∈ m.answers.lmIsStopped) :
    ∃ t, run s (pre ++ (reqs ++ [Op.frame])) = Except.ok t ∧
      t.mpTracker.mbOnlyTracking =
        (if m.mbDeactivateLocalizationMode = true ∨ Op.deactivate ∈ reqs then false
         else if m.mbActivateLocalizationMode = true ∨ Op.activate ∈ reqs then true
         else m.mpTracker.mbOnlyTracking) ∧
      t.mbActivateLocalizationMode = false ∧ t.mbDeactivateLocalizationMode = false := by
  obtain ⟨u, hu, ha, hd, htr, han⟩ := run_requests m reqs hreq
  obtain ⟨t, ht, hmode, hta, htd⟩ := checkModeChange_spec u (fun h => by
    rw [han]; exact hstop (ha.mp h))
  refine ⟨t, ?_, ?_, hta, htd⟩
  · rw [run_append, hpre]
    simp only
    rw [run_append, hu]
    simp only [run, step, ht]
  · rw [hmode, htr]
    by_cases h1 : m.mbDeactivateLocalizationMode = true ∨ Op.deactivate ∈ reqs
    · rw [if_pos (hd.mpr h1), if_pos h1]
    · rw [if_neg (fun h => h1 (hd.mp h)), if_neg h1]
      by_cases h2 : m.mbActivateLocalizationMode = true ∨ Op.activate ∈ reqs
      · rw [if_pos (ha.mpr h2), if_pos h2]
      · rw [if_neg (fun h => h2 (ha.mp h)), if_neg h2]

/-- C1 (amended), instance: after one processed frame, an activation followed by
another frame puts the constructed stereo system in tracking-only mode. -/
theorem C1_mode_after_frame_witness :
    ∃ t, run (demo eSensor.STEREO) ([Op.frame] ++ ([Op.activate] ++ [Op.frame])) = Except.ok t ∧
      t.mpTracker.mbOnlyTracking =
        (if (demo eSensor.STEREO).mbDeactivateLocalizationMode = true ∨
            Op.deactivate ∈ [Op.activate] then false
         else if (demo eSensor.STEREO).mbActivateLocalizationMode = true ∨
            Op.activate ∈ [Op.activate] then true
         else (demo eSensor.STEREO).mpTracker.mbOnlyTracking) ∧
      t.mbActivateLocalizationMode = false ∧ t.mbDeactivateLocalizationMode = false :=
  C1_mode_after_frame (demo eSensor.STEREO) (demo eSensor.STEREO) [Op.frame] [Op.activate]
    rfl (by decide) (fun _ => by decide)

theorem LoadMap_absent (sq : ℚ → ℚ) (s : System) (f : String) (h : s.disk f = none) :
    LoadMap sq s f = Except.ok (false, s.emit (Event.loadMap f false)) := by
  simp [LoadMap, h]

theorem LoadMap_frame (sq : ℚ → ℚ) (s t : System) (f : String) (b : Bool)
    (h : LoadMap sq s f = Except.ok (b, t)) :
    t.log = s.log ++ [Event.loadMap f b] ∧ t.mbReset = s.mbReset ∧ t.mSensor = s.mSensor ∧
    t.mpTracker = s.mpTracker ∧ t.mpMapDrawer = s.mpMapDrawer ∧ t.numOfMaps = s.numOfMaps ∧
    t.fileName = s.fileName ∧ t.mapfile = s.mapfile ∧
    t.mbActivateLocalizationMode = s.mbActivateLocalizationMode ∧
    t.mbDeactivateLocalizationMode = s.mbDeactivateLocalizationMode := by
  unfold LoadMap at h
  split at h
  · simp only [Except.ok.injEq, Prod.mk.injEq] at h
    obtain ⟨rfl, rfl⟩ := h
    simp [emit]
  · dsimp only at h
    split at h
    · simp at h
    · simp only [Except.ok.injEq, Prod.mk.injEq] at h
      obtain ⟨rfl, rfl⟩ := h
      simp

theorem count_reset_modeEvents (evs : List Event) (h : ∀ e ∈ evs, isModeEvent e = true) :
    evs.count Event.trackerReset = 0 := by
  apply List.count_eq_zero_of_not_mem
  intro hm
  have := h _ hm
  simp [isModeEvent] at this

theorem checkModeChange_reset (s t : System) (h : checkModeChange s = Except.ok t) :
    t.mbReset = s.mbReset ∧ resetCount t = resetCount s ∧ t.mSensor = s.mSensor := by
  obtain ⟨rest, evs, hev, rfl⟩ := checkModeChange_eq s t h
  simp [resetCount, List.count_append, count_reset_modeEvents evs hev]

theorem checkEndOfMap_reset (sq : ℚ → ℚ) (s t : System) (h : checkEndOfMap sq s = Except.ok t) :
    t.mbReset = s.mbReset ∧ resetCount t = resetCount s ∧ t.mSensor = s.mSensor := by
  unfold checkEndOfMap at h
  split at h
  · split at h
    · simp at h; subst h; simp
    · dsimp only at h
      split at h
      · split at h
        · simp at h
        · rename_i c hl
          obtain ⟨h1, h2, h3, -⟩ := LoadMap_frame _ _ _ _ _ hl
          simp only [Except.ok.injEq] at h
          subst h
          simp [rebuildSession, InformOnlyTracking, resetCount, h1, h2, h3, List.count_append]
        · rename_i c hl
          obtain ⟨h1, h2, h3, -⟩ := LoadMap_frame _ _ _ _ _ hl
          simp only [Except.ok.injEq] at h
          subst h
          simp [resetCount, h1, h2, h3, List.count_append]
      · simp at h; subst h; simp
  · simp at h; subst h; simp

theorem checkResetMonocular_clear (s t : System) (hr : s.mbReset = false)
    (h : checkResetMonocular s = Except.ok t) : t = s := by
  simp [checkResetMonocular, hr] at h
  exact h.symm

theorem checkReset_clear (s : System) (hr : s.mbReset = false) : checkReset s = s := by
  simp [checkReset, hr]

theorem grab_reset (s : System) (g : GrabResult) :
    (grab s g).mbReset = s.mbReset ∧ resetCount (grab s g) = resetCount s ∧
    (grab s g).mSensor = s.mSensor := by
  simp [grab, resetCount, List.count_append]

/-- A frame processed while no reset is requested does not reset the Tracking
Engine and leaves the flag clear. -/
theorem track_without_request (sq : ℚ → ℚ) (entry : eSensor) (s t : System) (g : GrabResult)
    (r : Option Pose) (hr : s.mbReset = false) (h : track sq entry s g = Except.ok (r, t)) :
    t.mbReset = false ∧ resetCount t = resetCount s := by
  cases entry with
  | STEREO =>
    simp only [track, TrackStereo] at h
    split at h
    · simp at h
    · split at h
      · simp at h
      · rename_i s1 h1
        obtain ⟨a, b, -⟩ := checkModeChange_reset _ _ h1
        simp only [Except.ok.injEq, Prod.mk.injEq] at h
        obtain ⟨-, rfl⟩ := h
        rw [checkReset_clear _ (a.trans hr)]
        obtain ⟨c, d, -⟩ := grab_reset s1 g
        exact ⟨c.trans (a.trans hr), d.trans b⟩
  | RGBD =>
    simp only [track, TrackRGBD] at h
    split at h
    · simp at h
    · split at h
      · simp at h
      · rename_i s1 h1
        obtain ⟨a, b, -⟩ := checkModeChange_reset _ _ h1
        simp only [Except.ok.injEq, Prod.mk.injEq] at h
        obtain ⟨-, rfl⟩ := h
        rw [checkReset_clear _ (a.trans hr)]
        obtain ⟨c, d, -⟩ := grab_reset s1 g
        exact ⟨c.trans (a.trans hr), d.trans b⟩
  | MONOCULAR =>
    simp only [track, TrackMonocular] at h
    split at h
    · simp at h
    · split at h
      · simp at h
      · rename_i s1 h1
        obtain ⟨a, b, -⟩ := checkModeChange_reset _ _ h1
        split at h
        · simp at h
        · rename_i s2 h2
          have := checkResetMonocular_clear _ _ (a.trans hr) h2
          subst this
          split at h
          · simp at h
          · rename_i s3 h3
            obtain ⟨e, f, -⟩ := checkEndOfMap_reset _ _ _ h3
            obtain ⟨c, d, -⟩ := grab_reset s2 g
            simp only [Except.ok.injEq, Prod.mk.injEq] at h
            obtain ⟨-, rfl⟩ := h
            exact ⟨e.trans (c.trans (a.trans hr)), f.trans (d.trans b)⟩
/-! ## C2: a requested reset is applied by the next frame -/

/-- The block "Check reset" of the stereo and RGB-D entry points applies a pending
request: one more reset, flag clear. -/
theorem checkReset_pending (s : System) (hr : s.mbReset = true) :
    (checkReset s).mbReset = false ∧ resetCount (checkReset s) = resetCount s + 1 ∧
    (checkReset s).mSensor = s.mSensor := by
  simp [checkReset, hr, emit, resetCount, List.count_append]

/-- The block "Check reset" of the monocular entry point applies a pending request
when the Tracking Engine is not in tracking-only mode and the map file can be
written. -/
theorem checkResetMonocular_pending (s : System) (hr : s.mbReset = true)
    (hm : s.mpTracker.mbOnlyTracking = false) (hw : s.writable s.fileName = true) :
    ∃ t, checkResetMonocular s = Except.ok t ∧ t.mbReset = false ∧
      resetCount t = resetCount s + 1 ∧ t.mpTracker.mbOnlyTracking = false := by
  simp [checkResetMonocular, hr, hm, SaveMap, hw, SaveKeyFrameTrajectoryTUM, emit, resetCount,
    List.count_append]

/-- The block "Check for end of map" does nothing outside tracking-only mode. -/
theorem checkEndOfMap_fullSlam (sq : ℚ → ℚ) (s : System)
    (hm : s.mpTracker.mbOnlyTracking = false) : checkEndOfMap sq s = Except.ok s := by
  simp [checkEndOfMap, hm]

/-- C2 (as stated, refuted): a monocular system is put in tracking-only mode by one
frame, `Reset()` is called, and the next frame is processed: the reset flag is
still set and the Tracking Engine has not been reset. -/
theorem C2_monocular_tracking_only_counterexample :
    ∃ r1 s1 r2 s2,
      TrackMonocular Rat.sqrt (demo eSensor.MONOCULAR).ActivateLocalizationMode noPose
        = Except.ok (r1, s1) ∧
      s1.mpTracker.mbOnlyTracking = true ∧
      TrackMonocular Rat.sqrt s1.Reset noPose = Except.ok (r2, s2) ∧
      s2.mbReset = true ∧ resetCount s2 = resetCount s1 :=
  ⟨_, _, _, _, rfl, rfl, rfl, rfl, by decide⟩

/-- C2 (amended): for `TrackStereo` and `TrackRGBD` in every state, and for
`TrackMonocular` when the mode in force after the frame's mode check is not
tracking-only and the current map file can be written: if `Reset()` was called
before the frame, the frame returns (given that Local Mapping answers "stopped"
when an activation is pending), the flag is then clear and the Tracking Engine
has been reset exactly once; a later frame of the same entry point leaves the
flag clear and does not reset again. -/
theorem C2_reset_applied_once (sq : ℚ → ℚ) (entry : eSensor) (s : System) (g : GrabResult)
    (hsensor : s.mSensor = entry) (hreset : s.mbReset = true)
    (hstop : s.mbActivateLocalizationMode = true → true ∈ s.answers.lmIsStopped)
    (hmono : entry = eSensor.MONOCULAR →
      (if s.mbDeactivateLocalizationMode = true then false
       else if s.mbActivateLocalizationMode = true then true
       else s.mpTracker.mbOnlyTracking) = false ∧ s.writable s.fileName = true) :
    ∃ r t, track sq entry s g = Except.ok (r, t) ∧ t.mbReset = false ∧
      resetCount t = resetCount s + 1 ∧
      ∀ g2 r2 u, track sq entry t g2 = Except.ok (r2, u) →
        u.mbReset = false ∧ resetCount u = resetCount t := by
  obtain ⟨s1, h1, hmode, -, -⟩ := checkModeChange_spec s hstop
  obtain ⟨a, b, c⟩ := checkModeChange_reset s s1 h1
  have key : ∃ r t, track sq entry s g = Except.ok (r, t) ∧ t.mbReset = false ∧
      resetCount t = resetCount s + 1 := by
    cases entry with
    | STEREO =>
      obtain ⟨p, q, -⟩ := checkReset_pending s1 (a.trans hreset)
      obtain ⟨x, y, -⟩ := grab_reset (checkReset s1) g
      refine ⟨g.Tcw, grab (checkReset s1) g, ?_, x.trans p, ?_⟩
      · simp [track, TrackStereo, hsensor, h1]
      · rw [y, q, b]
    | RGBD =>
      obtain ⟨p, q, -⟩ := checkReset_pending s1 (a.trans hreset)
      obtain ⟨x, y, -⟩ := grab_reset (checkReset s1) g
      refine ⟨g.Tcw, grab (checkReset s1) g, ?_, x.trans p, ?_⟩
      · simp [track, TrackRGBD, hsensor, h1]
      · rw [y, q, b]
    | MONOCULAR =>
      obtain ⟨hm, hw⟩ := hmono rfl
      obtain ⟨rest, evs, -, heq⟩ := checkModeChange_eq s s1 h1
      have hw1 : s1.writable s1.fileName = true := by rw [heq]; exact hw
      obtain ⟨s2, h2, p, q, hm2⟩ := checkResetMonocular_pending s1 (a.trans hreset)
        (hmode.trans hm) hw1
      obtain ⟨x, y, -⟩ := grab_reset s2 g
      have hm3 : (grab s2 g).mpTracker.mbOnlyTracking = false := by simpa [grab] using hm2
      refine ⟨g.Tcw, grab s2 g, ?_, x.trans p, ?_⟩
      · simp [track, TrackMonocular, hsensor, h1, h2, checkEndOfMap_fullSlam sq _ hm3]
      · rw [y, q, b]
  obtain ⟨r, t, ht, hclear, hcount⟩ := key
  exact ⟨r, t, ht, hclear, hcount, fun g2 r2 u hu =>
    track_without_request sq entry t u g2 r2 hclear hu⟩

/-- C2 (amended), instance: `Reset()` on the constructed monocular system, which
is in full SLAM mode, followed by one frame. -/
theorem C2_reset_applied_once_witness :
    ∃ r t, track Rat.sqrt eSensor.MONOCULAR (demo eSensor.MONOCULAR).Reset noPose
        = Except.ok (r, t) ∧ t.mbReset = false ∧
      resetCount t = resetCount (demo eSensor.MONOCULAR).Reset + 1 ∧
      ∀ g2 r2 u, track Rat.sqrt eSensor.MONOCULAR t g2 = Except.ok (r2, u) →
        u.mbReset = false ∧ resetCount u = resetCount t :=
  C2_reset_applied_once Rat.sqrt eSensor.MONOCULAR (demo eSensor.MONOCULAR).Reset noPose
    rfl rfl (fun h => by simp [demo, Reset] at h) (fun _ => ⟨rfl, rfl⟩)

theorem sortById_eq_nil (m : Map) (l : List Nat) : sortById m l = [] ↔ l = [] := by
  rw [← List.length_eq_zero, ← List.length_eq_zero (l := l), sortById, List.length_insertionSort]

theorem LoadMap_outcome (sq : ℚ → ℚ) (s : System) (f : String) :
    (s.disk f = none ∧ LoadMap sq s f = Except.ok (false, s.emit (Event.loadMap f false))) ∨
    (∃ map db, s.disk f = some (map, db) ∧ map.mspKeyFrames = [] ∧
      LoadMap sq s f = Except.error Fault.undefined) ∨
    (∃ map db t, s.disk f = some (map, db) ∧ map.mspKeyFrames ≠ [] ∧
      LoadMap sq s f = Except.ok (true, t)) := by
  cases hd : s.disk f with
  | none => exact Or.inl ⟨rfl, LoadMap_absent sq s f hd⟩
  | some v =>
    obtain ⟨map, db⟩ := v
    right
    cases hl : (sortById map map.mspKeyFrames).getLast? with
    | none =>
      left
      refine ⟨map, db, rfl, ?_, ?_⟩
      · exact (sortById_eq_nil map _).mp (List.getLast?_eq_none_iff.mp hl)
      · simp [LoadMap, hd, hl]
    | some p =>
      right
      have hne : map.mspKeyFrames ≠ [] := by
        intro he
        rw [he] at hl
        simp [sortById] at hl
      have hok : ∃ t, LoadMap sq s f = Except.ok (true, t) := by
        simp only [LoadMap, hd, hl]
        exact ⟨_, rfl⟩
      obtain ⟨t, ht⟩ := hok
      exact ⟨map, db, t, rfl, hne, ht⟩

theorem count_load_modeEvents (evs : List Event) (h : ∀ e ∈ evs, isModeEvent e = true) :
    evs.countP isLoadEvent = 0 := by
  rw [List.countP_eq_zero]
  intro e he
  have := h e he
  cases e <;> simp_all [isModeEvent, isLoadEvent]

/-- The mode in force once the block "Check mode change" has run. -/
theorem TrackMonocular_trackingOnly (sq : ℚ → ℚ) (s : System) (g : GrabResult)
    (hs : s.mSensor = eSensor.MONOCULAR)
    (hstop : s.mbActivateLocalizationMode = true → true ∈ s.answers.lmIsStopped)
    (hmode : (if s.mbDeactivateLocalizationMode = true then false
       else if s.mbActivateLocalizationMode = true then true
       else s.mpTracker.mbOnlyTracking) = true) :
    ∃ rest evs, (∀ e ∈ evs, isModeEvent e = true) ∧
      TrackMonocular sq s g =
        match checkEndOfMap sq (grab { s with
            mpTracker := { s.mpTracker with mbOnlyTracking := true },
            answers := { s.answers with lmIsStopped := rest },
            log := s.log ++ evs,
            mbActivateLocalizationMode := false,
            mbDeactivateLocalizationMode := false } g) with
        | Except.error f => Except.error f
        | Except.ok t => Except.ok (g.Tcw, t) := by
  obtain ⟨s1, h1, -, -, -⟩ := checkModeChange_spec s hstop
  obtain ⟨rest, evs, hev, heq⟩ := checkModeChange_eq s s1 h1
  rw [hmode] at heq
  refine ⟨rest, evs, hev, ?_⟩
  have h2 : checkResetMonocular s1 = Except.ok s1 := by
    have : s1.mpTracker.mbOnlyTracking = true := by rw [heq]
    simp [checkResetMonocular, this]
  have hne : ¬ s.mSensor ≠ eSensor.MONOCULAR := by simp [hs]
  simp only [TrackMonocular, h1, h2, if_neg hne]
  subst heq
  rfl

/-- The block "Check for end of map" in tracking-only mode with a pose available. -/
theorem checkEndOfMap_trackingOnly (sq : ℚ → ℚ) (u : System) (P : Pose)
    (hm : u.mpTracker.mbOnlyTracking = true) (hp : u.mpMapDrawer.mCameraPose = some P) :
    checkEndOfMap sq u =
      if distCurrent sq P > u.distLoad then
        match LoadMap sq { u with numOfMaps := u.numOfMaps + 1,
                                  fileName := segmentName (u.numOfMaps + 1) u.mapfile }
            (segmentName (u.numOfMaps + 1) u.mapfile) with
        | Except.error f => Except.error f
        | Except.ok (true, c) => Except.ok (rebuildSession c)
        | Except.ok (false, c) => Except.ok c
      else Except.ok u := by
  simp only [checkEndOfMap, hm, hp, if_true]
/-! ## Binary64 rounding -/

/-- A rational within one half of an integer rounds to that integer. -/
theorem roundHalfEven_near (m : ℚ) (r : ℤ) (h1 : (r : ℚ) - 1 / 2 < m) (h2 : m < r + 1 / 2) :
    roundHalfEven m = r := by
  unfold roundHalfEven
  by_cases hc : (r : ℚ) ≤ m
  · have hf : ⌊m⌋ = r := Int.floor_eq_iff.mpr ⟨hc, by linarith⟩
    rw [hf, if_pos (by linarith)]
  · have hf : ⌊m⌋ = r - 1 := Int.floor_eq_iff.mpr ⟨by push_cast; linarith, by push_cast; linarith⟩
    have hlt : ¬ (m - ((r - 1 : ℤ) : ℚ) < 1 / 2) := by push_cast; linarith
    have hgt : 1 / 2 < m - ((r - 1 : ℤ) : ℚ) := by push_cast; linarith
    rw [hf, if_neg hlt, if_pos hgt]
    ring

/-- Rounding to an integer moves to the floor or to the next integer. -/
theorem roundHalfEven_bounds (m : ℚ) : ⌊m⌋ ≤ roundHalfEven m ∧ roundHalfEven m ≤ ⌊m⌋ + 1 := by
  unfold roundHalfEven
  split_ifs <;> constructor <;> omega

/-- Rounding passes an even integer exactly when the argument passes the midpoint
above it: the tie goes to the even integer. -/
theorem roundHalfEven_gt_even (m : ℚ) (N : ℤ) (hN : N % 2 = 0) :
    N < roundHalfEven m ↔ (N : ℚ) + 1 / 2 < m := by
  have hfl := Int.floor_le m
  have hlt := Int.lt_floor_add_one m
  constructor
  · intro h
    by_contra hcon
    push_neg at hcon
    have hfN : ⌊m⌋ ≤ N := by
      by_contra h2
      push_neg at h2
      have : (N : ℚ) + 1 ≤ ⌊m⌋ := by exact_mod_cast h2
      linarith
    unfold roundHalfEven at h
    split_ifs at h with h1 h2 h3
    · omega
    · have : ⌊m⌋ = N := by omega
      rw [this] at h2
      linarith
    · omega
    · have : ⌊m⌋ = N := by omega
      rw [this] at h3
      exact h3 hN
  · intro h
    have hfN : N ≤ ⌊m⌋ := Int.le_floor.mpr (by linarith)
    unfold roundHalfEven
    split_ifs with h1 h2 h3
    · by_contra hcon
      have : ⌊m⌋ = N := by omega
      rw [this] at h1
      linarith
    · omega
    · by_contra hcon
      have : ⌊m⌋ = N := by omega
      rw [this] at h1 h2
      have : m - (N : ℚ) = 1 / 2 := by linarith
      linarith
    · omega

/-- The binary exponent of a positive rational between two consecutive powers of
two. -/
theorem log_two_eq (q : ℚ) (e : ℤ) (hq : 0 < q) (hlo : (2 : ℚ) ^ e ≤ q)
    (hhi : q < (2 : ℚ) ^ (e + 1)) : Int.log 2 q = e := by
  have h1 : e ≤ Int.log 2 q :=
    (Int.zpow_le_iff_le_log (R := ℚ) (b := 2) (by norm_num) hq).mp (by exact_mod_cast hlo)
  have h2 : Int.log 2 q < e + 1 :=
    (Int.lt_zpow_iff_log_lt (R := ℚ) (b := 2) (by norm_num) hq).mp (by exact_mod_cast hhi)
  omega

/-- Evaluation of `roundDouble` at a positive rational: with the exponent `e` and a
multiple `r` of the unit within half a unit. -/
theorem roundDouble_near (q : ℚ) (e r : ℤ) (hpos : 0 < q) (hlo : (2 : ℚ) ^ e ≤ q)
    (hhi : q < (2 : ℚ) ^ (e + 1)) (h1 : (r : ℚ) - 1 / 2 < q / 2 ^ (e - 52))
    (h2 : q / 2 ^ (e - 52) < r + 1 / 2) :
    roundDouble q = r * 2 ^ (e - 52) := by
  have hlog := log_two_eq q e hpos hlo hhi
  rw [roundDouble, if_neg (ne_of_gt hpos), abs_of_pos hpos, hlog, roundHalfEven_near _ r h1 h2]

/-- Zero is a binary64 value. -/
theorem roundDouble_zero : roundDouble 0 = 0 := by
  simp [roundDouble]

/-- A rounded `double` exceeds 5.0 exactly when the exact value exceeds the
midpoint between 5.0 and the next binary64 value, `5 + 2 ^ (-51)`: below 4 and
from 8 on the binade decides, and within [4, 8) the tie at the midpoint goes to
5.0, whose last bit is even. -/
theorem roundDouble_gt_five (v : ℚ) : 5 < roundDouble v ↔ 5 + 1 / 2 ^ 51 < v := by
  rcases lt_trichotomy v 0 with hneg | rfl | hpos
  · have hu : (0 : ℚ) < 2 ^ (Int.log 2 |v| - 52) := zpow_pos (by norm_num) _
    have hm : v / 2 ^ (Int.log 2 |v| - 52) < 0 := div_neg_of_neg_of_pos hneg hu
    have hfl : ⌊v / 2 ^ (Int.log 2 |v| - 52)⌋ < 0 := Int.floor_lt.mpr (by exact_mod_cast hm)
    have hb := (roundHalfEven_bounds (v / 2 ^ (Int.log 2 |v| - 52))).2
    have hr : (roundHalfEven (v / 2 ^ (Int.log 2 |v| - 52)) : ℚ) ≤ 0 := by
      exact_mod_cast (by omega : roundHalfEven (v / 2 ^ (Int.log 2 |v| - 52)) ≤ 0)
    have : roundDouble v ≤ 0 := by
      rw [roundDouble, if_neg (ne_of_lt hneg)]
      exact mul_nonpos_of_nonpos_of_nonneg hr hu.le
    constructor
    · intro h; linarith
    · intro h
      have : (0:ℚ) < 1 / 2 ^ 51 := by positivity
      linarith
  · rw [roundDouble_zero]
    constructor
    · intro h; norm_num at h
    · intro h
      have : (0:ℚ) < 1 / 2 ^ 51 := by positivity
      linarith
  · have habs : |v| = v := abs_of_pos hpos
    obtain ⟨e, he⟩ : ∃ e, Int.log 2 v = e := ⟨_, rfl⟩
    have hlo : (2 : ℚ) ^ e ≤ v := by
      have := Int.zpow_log_le_self (R := ℚ) (b := 2) (by norm_num) hpos
      rw [he] at this
      exact_mod_cast this
    have hhi : v < (2 : ℚ) ^ (e + 1) := by
      have := Int.lt_zpow_succ_log_self (R := ℚ) (b := 2) (by norm_num) v
      rw [he] at this
      exact_mod_cast this
    have hu : (0 : ℚ) < 2 ^ (e - 52) := zpow_pos (by norm_num) _
    have hrd : roundDouble v = roundHalfEven (v / 2 ^ (e - 52)) * 2 ^ (e - 52) := by
      rw [roundDouble, if_neg (ne_of_gt hpos), habs, he]
    have hsplit : (2 : ℚ) ^ e = 4503599627370496 * 2 ^ (e - 52) := by
      have h : (2 : ℚ) ^ e = 2 ^ (52 : ℤ) * 2 ^ (e - 52) := by
        rw [← zpow_add₀ (by norm_num : (2 : ℚ) ≠ 0)]
        congr 1
        ring
      rw [h]
      norm_num
    have hsplit1 : (2 : ℚ) ^ (e + 1) = 9007199254740992 * 2 ^ (e - 52) := by
      have h : (2 : ℚ) ^ (e + 1) = 2 ^ (53 : ℤ) * 2 ^ (e - 52) := by
        rw [← zpow_add₀ (by norm_num : (2 : ℚ) ≠ 0)]
        congr 1
        ring
      rw [h]
      norm_num
    have hmlo : ((4503599627370496 : ℤ) : ℚ) ≤ v / 2 ^ (e - 52) := by
      rw [le_div_iff₀ hu]
      push_cast
      rw [← hsplit]
      exact hlo
    have hmhi : v / 2 ^ (e - 52) < ((9007199254740992 : ℤ) : ℚ) := by
      rw [div_lt_iff₀ hu]
      push_cast
      rw [← hsplit1]
      exact hhi
    have hfl1 : (4503599627370496 : ℤ) ≤ ⌊v / 2 ^ (e - 52)⌋ := Int.le_floor.mpr hmlo
    have hfl2 : ⌊v / 2 ^ (e - 52)⌋ < (9007199254740992 : ℤ) := Int.floor_lt.mpr hmhi
    obtain ⟨hb1, hb2⟩ := roundHalfEven_bounds (v / 2 ^ (e - 52))
    have hr1 : (4503599627370496 : ℚ) ≤ roundHalfEven (v / 2 ^ (e - 52)) := by
      exact_mod_cast le_trans hfl1 hb1
    have hr2 : (roundHalfEven (v / 2 ^ (e - 52)) : ℚ) ≤ 9007199254740992 := by
      exact_mod_cast (by omega : roundHalfEven (v / 2 ^ (e - 52)) ≤ 9007199254740992)
    have hres1 : (2 : ℚ) ^ e ≤ roundDouble v := by
      rw [hrd, hsplit]
      exact mul_le_mul_of_nonneg_right hr1 hu.le
    have hres2 : roundDouble v ≤ (2 : ℚ) ^ (e + 1) := by
      rw [hrd, hsplit1]
      exact mul_le_mul_of_nonneg_right hr2 hu.le
    have hsmall : (0:ℚ) < 1 / 2 ^ 51 ∧ (1:ℚ) / 2 ^ 51 < 1 := by
      constructor
      · positivity
      · norm_num
    rcases lt_trichotomy e 2 with hlt | heq | hgt
    · have h4 : (2 : ℚ) ^ (e + 1) ≤ 2 ^ (2 : ℤ) :=
        zpow_le_zpow_right₀ (by norm_num) (by omega)
      have h4' : (2 : ℚ) ^ (2 : ℤ) = 4 := by norm_num
      constructor
      · intro h; linarith
      · intro h; linarith [hsmall.1]
    · have hu50 : (2 : ℚ) ^ (e - 52) = (1125899906842624 : ℚ)⁻¹ := by
        rw [heq]
        norm_num
      have hc : (0 : ℚ) < 1125899906842624 := by norm_num
      have hkey := roundHalfEven_gt_even (v * 1125899906842624) 5629499534213120 (by norm_num)
      rw [hrd, hu50, div_inv_eq_mul]
      have hthr : (5 : ℚ) + 1 / 2 ^ 51 = ((5629499534213120 : ℤ) + 1 / 2) / 1125899906842624 := by
        norm_num
      rw [hthr, div_lt_iff₀ hc, ← hkey]
      constructor
      · intro h
        have h1 := mul_lt_mul_of_pos_right h hc
        rw [mul_assoc, inv_mul_cancel₀ (ne_of_gt hc), mul_one] at h1
        have h2 : ((5629499534213120 : ℤ) : ℚ) < roundHalfEven (v * 1125899906842624) := by
          push_cast
          linarith
        exact_mod_cast h2
      · intro h
        have h2 : ((5629499534213120 : ℤ) : ℚ) < roundHalfEven (v * 1125899906842624) := by
          exact_mod_cast h
        push_cast at h2
        have h3 : (5629499534213120 : ℚ) * (1125899906842624 : ℚ)⁻¹
            < roundHalfEven (v * 1125899906842624) * (1125899906842624 : ℚ)⁻¹ :=
          mul_lt_mul_of_pos_right h2 (inv_pos.mpr hc)
        have h5 : (5629499534213120 : ℚ) * (1125899906842624 : ℚ)⁻¹ = 5 := by norm_num
        linarith
    · have h8 : (2 : ℚ) ^ (3 : ℤ) ≤ 2 ^ e := zpow_le_zpow_right₀ (by norm_num) (by omega)
      have h8' : (2 : ℚ) ^ (3 : ℤ) = 8 := by norm_num
      constructor
      · intro _; linarith [hsmall.2]
      · intro _; linarith

/-! ## C3 and C4: the distance check of the monocular entry point -/

/-- The monocular entry point in tracking-only mode with a pose available, when the
biased distance does not exceed the recorded extent: the frame returns without
a call of `LoadMap`. -/
theorem TrackMonocular_within_extent (sq : ℚ → ℚ) (s : System) (g : GrabResult) (P : Pose)
    (hs : s.mSensor = eSensor.MONOCULAR)
    (hstop : s.mbActivateLocalizationMode = true → true ∈ s.answers.lmIsStopped)
    (hmode : (if s.mbDeactivateLocalizationMode = true then false
       else if s.mbActivateLocalizationMode = true then true
       else s.mpTracker.mbOnlyTracking) = true)
    (hp : (grab s g).mpMapDrawer.mCameraPose = some P)
    (hd : ¬ distCurrent sq P > s.distLoad) :
    ∃ r t, TrackMonocular sq s g = Except.ok (r, t) ∧ loadAttempts t = loadAttempts s ∧
      t.numOfMaps = s.numOfMaps := by
  obtain ⟨rest, evs, hev, hT⟩ := TrackMonocular_trackingOnly sq s g hs hstop hmode
  rw [checkEndOfMap_trackingOnly sq _ P (by simp [grab]) (by simpa [grab] using hp)] at hT
  rw [if_neg (by simpa [grab] using hd)] at hT
  refine ⟨_, _, hT, ?_, ?_⟩
  · simp [loadAttempts, grab, List.countP_append, count_load_modeEvents evs hev, isLoadEvent]
  · simp [grab]

/-- The monocular entry point in tracking-only mode with a pose available, when the
biased distance exceeds the recorded extent: `LoadMap` is called on the file of
the next segment index.  Either the frame returns with that call in the log
and the index advanced, or the file held a map without keyframes and the call
ran into the out-of-range access. -/
theorem TrackMonocular_beyond_extent (sq : ℚ → ℚ) (s : System) (g : GrabResult) (P : Pose)
    (hs : s.mSensor = eSensor.MONOCULAR)
    (hstop : s.mbActivateLocalizationMode = true → true ∈ s.answers.lmIsStopped)
    (hmode : (if s.mbDeactivateLocalizationMode = true then false
       else if s.mbActivateLocalizationMode = true then true
       else s.mpTracker.mbOnlyTracking) = true)
    (hp : (grab s g).mpMapDrawer.mCameraPose = some P)
    (hd : distCurrent sq P > s.distLoad) :
    (∃ r t b, TrackMonocular sq s g = Except.ok (r, t) ∧
      loadAttempts t = loadAttempts s + 1 ∧
      Event.loadMap (segmentName (s.numOfMaps + 1) s.mapfile) b ∈ t.log ∧
      t.numOfMaps = s.numOfMaps + 1) ∨
    (TrackMonocular sq s g = Except.error Fault.undefined ∧
      ∃ map db, s.disk (segmentName (s.numOfMaps + 1) s.mapfile) = some (map, db) ∧
        map.mspKeyFrames = []) := by
  obtain ⟨rest, evs, hev, hT⟩ := TrackMonocular_trackingOnly sq s g hs hstop hmode
  rw [checkEndOfMap_trackingOnly sq _ P (by simp [grab]) (by simpa [grab] using hp)] at hT
  rw [if_pos (by simpa [grab] using hd)] at hT
  have hc := count_load_modeEvents evs hev
  rcases LoadMap_outcome sq _ _ with ⟨-, hl⟩ | ⟨map, db, hdisk, hempty, hl⟩ | ⟨map, db, t, -, -, hl⟩
  · rw [hl] at hT
    left
    refine ⟨_, _, false, hT, ?_, ?_, ?_⟩
    · simp [loadAttempts, grab, emit, List.countP_append, hc, isLoadEvent]
    · simp [grab, emit]
    · simp [grab, emit]
  · rw [hl] at hT
    right
    exact ⟨hT, map, db, by simpa [grab] using hdisk, hempty⟩
  · rw [hl] at hT
    obtain ⟨h1, -, -, -, -, h6, -⟩ := LoadMap_frame _ _ _ _ _ hl
    left
    refine ⟨_, _, true, hT, ?_, ?_, ?_⟩
    · simp [loadAttempts, rebuildSession, InformOnlyTracking, h1, grab, List.countP_append, hc,
        isLoadEvent]
    · simp [rebuildSession, InformOnlyTracking, h1, grab]
    · simp [rebuildSession, InformOnlyTracking, h6, grab]

/-- Evaluation of `sqrtDouble` at a positive rational: with the exponent `e` of the
root, the floor `n` of four times the scaled argument and its integer square
root `j`. -/
theorem sqrtDouble_eq (q : ℚ) (e : ℤ) (n j : ℕ) (hq : 0 < q) (hlo : (2 : ℚ) ^ (2 * e) ≤ q)
    (hhi : q < (2 : ℚ) ^ (2 * e + 2))
    (hn : ⌊4 * (q / (2 ^ (e - 52) * 2 ^ (e - 52)))⌋₊ = n)
    (hj1 : j * j ≤ n) (hj2 : n < (j + 1) * (j + 1)) :
    sqrtDouble q = (((j + 1) / 2 : ℕ) : ℚ) * 2 ^ (e - 52) := by
  have h1 : 2 * e ≤ Int.log 2 q :=
    (Int.zpow_le_iff_le_log (R := ℚ) (b := 2) (by norm_num) hq).mp (by exact_mod_cast hlo)
  have h2 : Int.log 2 q < 2 * e + 2 :=
    (Int.lt_zpow_iff_log_lt (R := ℚ) (b := 2) (by norm_num) hq).mp (by exact_mod_cast hhi)
  have he : Int.log 2 q / 2 = e := by omega
  have hj : Nat.sqrt n = j := (Nat.eq_sqrt.mpr ⟨hj1, hj2⟩).symm
  rw [sqrtDouble, if_neg (not_le.mpr hq), he, hn, hj]

/-- The test `distCurrent > 5.0` in terms of the computed translation norm. -/
theorem distCurrent_gt_five (sq : ℚ → ℚ) (P : Pose) :
    5 < distCurrent sq P ↔ swapThreshold < translationNorm sq P := by
  rw [distCurrent, roundDouble_gt_five, swapThreshold]
  constructor <;> intro h <;> linarith

/-- The translation norm of a pose on the first axis whose square is a binary64
value. -/
theorem translationNorm_axis (sq : ℚ → ℚ) (d : ℚ) (h : roundDouble (d ^ 2) = d ^ 2) :
    translationNorm sq (poseAt d 0 0) = sq (d ^ 2) := by
  have h0 : poseAt d 0 0 0 3 = d := by simp [poseAt]
  have h1 : poseAt d 0 0 1 3 = 0 := by simp [poseAt]
  have h2 : poseAt d 0 0 2 3 = 0 := by simp [poseAt]
  simp only [translationNorm, h0, h1, h2, ne_eq, OfNat.ofNat_ne_zero, not_false_eq_true,
    zero_pow, roundDouble_zero, add_zero, h]

/-- The norm computed for the pose at `4.9f` on the first axis is `4.9f`. -/
theorem translationNorm_float49 : translationNorm sqrtDouble (poseAt float49 0 0) = float49 := by
  have hsq : roundDouble (float49 ^ 2) = float49 ^ 2 := by
    rw [roundDouble_near (float49 ^ 2) 4 6758214453889600 (by norm_num [float49])
      (by norm_num [float49]) (by norm_num [float49]) (by norm_num [float49])
      (by norm_num [float49])]
    norm_num [float49]
  rw [translationNorm_axis sqrtDouble float49 hsq,
    sqrtDouble_eq (float49 ^ 2) 2 121745168384908410725949924966400 11033819301806080
      (by norm_num [float49]) (by norm_num [float49]) (by norm_num [float49])
      ((Nat.floor_eq_iff (by norm_num [float49])).mpr (by norm_num [float49]))
      (by norm_num) (by norm_num)]
  norm_num [float49]

/-- The norm computed for `boundaryPose` is the binary64 value nearest to 4.9. -/
theorem translationNorm_boundaryPose :
    translationNorm sqrtDouble boundaryPose = nearestDouble49 := by
  have h0 : boundaryPose 0 3 = 10276044 / 2 ^ 21 := by simp [boundaryPose, poseAt]
  have h1 : boundaryPose 1 3 = 16608558 / 2 ^ 33 := by simp [boundaryPose, poseAt]
  have h2 : boundaryPose 2 3 = 9114466 / 2 ^ 41 := by simp [boundaryPose, poseAt]
  have hx : roundDouble ((10276044 / 2 ^ 21 : ℚ) ^ 2) = 6758213138555904 / 2 ^ 48 := by
    rw [roundDouble_near _ 4 6758213138555904 (by norm_num) (by norm_num) (by norm_num)
      (by norm_num) (by norm_num)]
    norm_num
  have hy : roundDouble ((16608558 / 2 ^ 33 : ℚ) ^ 2) = 8827014362859648 / 2 ^ 71 := by
    rw [roundDouble_near _ (-19) 8827014362859648 (by norm_num) (by norm_num) (by norm_num)
      (by norm_num) (by norm_num)]
    norm_num
  have hz : roundDouble ((9114466 / 2 ^ 41 : ℚ) ^ 2) = 5316703389769984 / 2 ^ 88 := by
    rw [roundDouble_near _ (-36) 5316703389769984 (by norm_num) (by norm_num) (by norm_num)
      (by norm_num) (by norm_num)]
    norm_num
  have hs1 : roundDouble ((6758213138555904 / 2 ^ 48 : ℚ) + 8827014362859648 / 2 ^ 71)
      = 6758214190818015 / 2 ^ 48 := by
    rw [roundDouble_near _ 4 6758214190818015 (by norm_num) (by norm_num) (by norm_num)
      (by norm_num) (by norm_num)]
    norm_num
  have hs2 : roundDouble ((6758214190818015 / 2 ^ 48 : ℚ) + 5316703389769984 / 2 ^ 88)
      = 6758214190822851 / 2 ^ 48 := by
    rw [roundDouble_near _ 4 6758214190822851 (by norm_num) (by norm_num) (by norm_num)
      (by norm_num) (by norm_num)]
    norm_num
  rw [translationNorm, h0, h1, h2, hx, hy, hs1, hz, hs2,
    sqrtDouble_eq (6758214190822851 / 2 ^ 48) 2 121745163645919159646078720016384
      11033819087057715 (by norm_num) (by norm_num) (by norm_num)
      ((Nat.floor_eq_iff (by norm_num)).mpr (by norm_num)) (by norm_num) (by norm_num)]
  norm_num [nearestDouble49]

/-- The binary64 value nearest to 4.9 lies above 4.9 and below the threshold of the
test, and the next binary64 value lies above the threshold: a `double` norm
passes the threshold exactly when it is greater than the value nearest to
4.9. -/
theorem swapThreshold_between :
    49 / 10 < nearestDouble49 ∧ nearestDouble49 < swapThreshold ∧
    swapThreshold < nearestDouble49 + 1 / 2 ^ 50 := by
  norm_num [nearestDouble49, swapThreshold, tenthDouble]


/-- C3 (as stated, refuted): recorded extent 5.0 in monocular tracking-only
operation, with the camera at `boundaryPose`.  The entries of the translation
are binary32 values, its Euclidean norm is above 4.9, and the distance computed
in binary64 is the binary64 value nearest to 4.9, itself above 4.9.  Adding the
bias gives exactly 5.0, which does not exceed the extent, and the frame returns
without a call of `LoadMap`. -/
theorem C3_rounding_counterexample :
    isBinary32 (boundaryPose 0 3) ∧ isBinary32 (boundaryPose 1 3) ∧
    isBinary32 (boundaryPose 2 3) ∧
    (49 / 10 : ℚ) ^ 2 < boundaryPose 0 3 ^ 2 + boundaryPose 1 3 ^ 2 + boundaryPose 2 3 ^ 2 ∧
    translationNorm sqrtDouble boundaryPose = nearestDouble49 ∧ 49 / 10 < nearestDouble49 ∧
    distCurrent sqrtDouble boundaryPose = 5 ∧
    localizing.distLoad = 5 ∧ localizing.mpTracker.mbOnlyTracking = true ∧
    ∃ r t, TrackMonocular sqrtDouble localizing (grabPose boundaryPose) = Except.ok (r, t) ∧
      loadAttempts t = loadAttempts localizing ∧ t.numOfMaps = localizing.numOfMaps := by
  have h0 : boundaryPose 0 3 = 10276044 / 2 ^ 21 := by simp [boundaryPose, poseAt]
  have h1 : boundaryPose 1 3 = 16608558 / 2 ^ 33 := by simp [boundaryPose, poseAt]
  have h2 : boundaryPose 2 3 = 9114466 / 2 ^ 41 := by simp [boundaryPose, poseAt]
  have hsum : roundDouble (nearestDouble49 + tenthDouble) = 5 := by
    rw [roundDouble_near _ 2 5629499534213120 (by norm_num [nearestDouble49, tenthDouble])
      (by norm_num [nearestDouble49, tenthDouble]) (by norm_num [nearestDouble49, tenthDouble])
      (by norm_num [nearestDouble49, tenthDouble]) (by norm_num [nearestDouble49, tenthDouble])]
    norm_num
  refine ⟨⟨10276044, -21, by norm_num, by norm_num, by norm_num, by rw [h0]; norm_num⟩,
    ⟨16608558, -33, by norm_num, by norm_num, by norm_num, by rw [h1]; norm_num⟩,
    ⟨9114466, -41, by norm_num, by norm_num, by norm_num, by rw [h2]; norm_num⟩,
    by rw [h0, h1, h2]; norm_num, translationNorm_boundaryPose, swapThreshold_between.1,
    by rw [distCurrent, translationNorm_boundaryPose, hsum], rfl, rfl, ?_⟩
  apply TrackMonocular_within_extent sqrtDouble localizing (grabPose boundaryPose) boundaryPose
    rfl (fun h => by simp [localizing, demo] at h) rfl rfl
  have h5 : localizing.distLoad = 5 := rfl
  rw [h5, gt_iff_lt, distCurrent_gt_five, translationNorm_boundaryPose]
  exact not_lt.mpr (le_of_lt swapThreshold_between.2.1)

/-- C3 (amended): in monocular tracking-only operation with a camera pose available
and recorded extent 5.0, let `d` be the translation norm as line 311 computes
it in binary64 from the binary32 entries of the pose, and let the bias be the
`double` 0.1, added in binary64.  The frame calls `LoadMap` on the file of the
next segment index (it returns with the call in its log, or the call hits a
map file without keyframes) for every `d` above `swapThreshold`, which for a
binary64 `d` means every `d` greater than the binary64 value nearest to 4.9; it
returns without calling `LoadMap` for every `d` up to `swapThreshold`, so at the
binary64 value nearest to 4.9 and at 4.85. -/
theorem C3_swap_threshold (sq : ℚ → ℚ) (s : System) (g : GrabResult) (P : Pose)
    (hs : s.mSensor = eSensor.MONOCULAR)
    (hstop : s.mbActivateLocalizationMode = true → true ∈ s.answers.lmIsStopped)
    (hmode : (if s.mbDeactivateLocalizationMode = true then false
       else if s.mbActivateLocalizationMode = true then true
       else s.mpTracker.mbOnlyTracking) = true)
    (hp : (grab s g).mpMapDrawer.mCameraPose = some P)
    (hextent : s.distLoad = 5) :
    (swapThreshold < translationNorm sq P →
      (∃ r t b, TrackMonocular sq s g = Except.ok (r, t) ∧
        loadAttempts t = loadAttempts s + 1 ∧
        Event.loadMap (segmentName (s.numOfMaps + 1) s.mapfile) b ∈ t.log ∧
        t.numOfMaps = s.numOfMaps + 1) ∨
      (TrackMonocular sq s g = Except.error Fault.undefined ∧
        ∃ map db, s.disk (segmentName (s.numOfMaps + 1) s.mapfile) = some (map, db) ∧
          map.mspKeyFrames = [])) ∧
    (translationNorm sq P ≤ swapThreshold →
      ∃ r t, TrackMonocular sq s g = Except.ok (r, t) ∧ loadAttempts t = loadAttempts s ∧
        t.numOfMaps = s.numOfMaps) ∧
    (49 / 10 < nearestDouble49 ∧ nearestDouble49 < swapThreshold ∧
      swapThreshold < nearestDouble49 + 1 / 2 ^ 50 ∧ (97 / 20 : ℚ) < swapThreshold) := by
  refine ⟨fun h => ?_, fun h => ?_, swapThreshold_between.1, swapThreshold_between.2.1,
    swapThreshold_between.2.2, by norm_num [swapThreshold, tenthDouble]⟩
  · apply TrackMonocular_beyond_extent sq s g P hs hstop hmode hp
    rw [hextent, gt_iff_lt, distCurrent_gt_five]
    exact h
  · apply TrackMonocular_within_extent sq s g P hs hstop hmode hp
    rw [hextent, gt_iff_lt, distCurrent_gt_five]
    exact not_lt.mpr h

/-- C3 (amended), instance: the tracking-only example system with the camera at
`4.9f` on the first axis.  The computed norm is `4.9f`, above the threshold, and
the frame calls `LoadMap` for segment 2. -/
theorem C3_swap_threshold_witness :
    translationNorm sqrtDouble (poseAt float49 0 0) = float49 ∧
    ((∃ r t b, TrackMonocular sqrtDouble localizing (grabPose (poseAt float49 0 0))
        = Except.ok (r, t) ∧
      loadAttempts t = loadAttempts localizing + 1 ∧
      Event.loadMap (segmentName (localizing.numOfMaps + 1) localizing.mapfile) b ∈ t.log ∧
      t.numOfMaps = localizing.numOfMaps + 1) ∨
    (TrackMonocular sqrtDouble localizing (grabPose (poseAt float49 0 0))
        = Except.error Fault.undefined ∧
      ∃ map db, localizing.disk (segmentName (localizing.numOfMaps + 1) localizing.mapfile)
          = some (map, db) ∧ map.mspKeyFrames = [])) :=
  ⟨translationNorm_float49,
   (C3_swap_threshold sqrtDouble localizing (grabPose (poseAt float49 0 0)) (poseAt float49 0 0)
      rfl (fun h => by simp [localizing, demo] at h) rfl rfl rfl).1
      (by rw [translationNorm_float49]; norm_num [swapThreshold, tenthDouble, float49])⟩

/-- The wait loop is left only after a round in which Local Mapping answered
finished, Loop Closing answered finished and `isRunningGBA` answered false. -/
theorem waitWorkers_events (lm lc gba a b c : List Bool) (evs : List Event)
    (h : waitWorkers lm lc gba = Except.ok (a, b, c, evs)) :
    (∃ pre, evs = pre ++ finalRound) ∧ ∀ e ∈ evs, isPoll e = true := by
  induction lm generalizing lc gba evs with
  | nil => simp [waitWorkers] at h
  | cons x lm ih =>
    cases x with
    | false =>
      simp only [waitWorkers] at h
      cases hr : waitWorkers lm lc gba with
      | error f => simp [hr] at h
      | ok v =>
        obtain ⟨a1, b1, c1, ev1⟩ := v
        simp only [hr, Except.ok.injEq, Prod.mk.injEq] at h
        obtain ⟨rfl, rfl, rfl, rfl⟩ := h
        obtain ⟨⟨pre, rfl⟩, hp⟩ := ih lc gba ev1 hr
        refine ⟨⟨Event.polled Poll.lmIsFinished false :: pre, rfl⟩, ?_⟩
        intro e he
        rcases List.mem_cons.mp he with rfl | he
        · rfl
        · exact hp e he
    | true =>
      cases lc with
      | nil => simp [waitWorkers] at h
      | cons y lc =>
        cases y with
        | false =>
          simp only [waitWorkers] at h
          cases hr : waitWorkers lm lc gba with
          | error f => simp [hr] at h
          | ok v =>
            obtain ⟨a1, b1, c1, ev1⟩ := v
            simp only [hr, Except.ok.injEq, Prod.mk.injEq] at h
            obtain ⟨rfl, rfl, rfl, rfl⟩ := h
            obtain ⟨⟨pre, rfl⟩, hp⟩ := ih lc gba ev1 hr
            refine ⟨⟨Event.polled Poll.lmIsFinished true ::
              Event.polled Poll.lcIsFinished false :: pre, rfl⟩, ?_⟩
            intro e he
            simp only [List.mem_cons] at he
            rcases he with rfl | rfl | he
            · rfl
            · rfl
            · exact hp e (by simpa using he)
        | true =>
          cases gba with
          | nil => simp [waitWorkers] at h
          | cons z gba =>
            cases z with
            | true =>
              simp only [waitWorkers] at h
              cases hr : waitWorkers lm lc gba with
              | error f => simp [hr] at h
              | ok v =>
                obtain ⟨a1, b1, c1, ev1⟩ := v
                simp only [hr, Except.ok.injEq, Prod.mk.injEq] at h
                obtain ⟨rfl, rfl, rfl, rfl⟩ := h
                obtain ⟨⟨pre, rfl⟩, hp⟩ := ih lc gba ev1 hr
                refine ⟨⟨Event.polled Poll.lmIsFinished true ::
                  Event.polled Poll.lcIsFinished true ::
                  Event.polled Poll.lcIsRunningGBA true :: pre, rfl⟩, ?_⟩
                intro e he
                simp only [List.mem_cons] at he
                rcases he with rfl | rfl | rfl | he
                · rfl
                · rfl
                · rfl
                · exact hp e (by simpa using he)
            | false =>
              simp only [waitWorkers, Except.ok.injEq, Prod.mk.injEq] at h
              obtain ⟨-, -, -, rfl⟩ := h
              refine ⟨⟨[], rfl⟩, ?_⟩
              intro e he
              simp only [List.mem_cons, List.mem_singleton, List.mem_nil_iff, or_false] at he
              rcases he with rfl | rfl | rfl <;> rfl

/-- The last part of `Shutdown` polls nothing: it appends the rebinding of the
rendering context and the persistence calls only. -/
theorem persistOnShutdown_log (s t : System) (h : persistOnShutdown s = Except.ok t) :
    ∃ post, t.log = s.log ++ post ∧ ∀ e ∈ post, isPoll e = false := by
  unfold persistOnShutdown at h
  cases hv : s.mpViewer.isSome <;> cases hs : s.is_save_map <;>
    cases hm : s.mpTracker.mbOnlyTracking <;> cases hk : s.mpMap.mspKeyFrames.isEmpty <;>
    cases hw : s.writable s.fileName <;>
    simp [hv, hs, hm, hk, hw, emit, SaveMap, SaveKeyFrameTrajectoryTUM] at h <;>
    subst h <;> simp [isPoll]

/-- Polls are not persistence actions. -/
theorem isPersistEvent_of_isPoll (e : Event) (h : isPoll e = true) : isPersistEvent e = false := by
  cases e <;> simp_all [isPoll, isPersistEvent]

/-- `Shutdown` up to its last part: the finish requests and the viewer loop, then
the wait loop, none of which persists anything; the rest is `persistOnShutdown`
on a state that differs from the initial one in the consumed answers and the
log only. -/
theorem Shutdown_decompose (s t : System) (h : Shutdown s = Except.ok t) :
    ∃ vevs wevs ans, (∀ e ∈ vevs, isPersistEvent e = false) ∧
      (∀ e ∈ wevs, isPoll e = true) ∧ (∃ pre, wevs = pre ++ finalRound) ∧
      persistOnShutdown { s with answers := ans, log := s.log ++ vevs ++ wevs } = Except.ok t := by
  unfold Shutdown at h
  dsimp only at h
  cases hv : s.mpViewer.isSome with
  | false =>
    simp only [emit, hv, Bool.false_eq_true, if_false] at h
    split at h
    · simp at h
    · rename_i lm lc gba evs hw
      obtain ⟨hfin, hpoll⟩ := waitWorkers_events _ _ _ _ _ _ _ hw
      refine ⟨[Event.lmRequestFinish, Event.lcRequestFinish], evs,
        { s.answers with lmIsFinished := lm, lcIsFinished := lc, lcIsRunningGBA := gba },
        ?_, hpoll, hfin, ?_⟩
      · intro e he
        simp only [List.mem_cons, List.mem_singleton, List.mem_nil_iff, or_false] at he
        rcases he with rfl | rfl <;> rfl
      · simpa using h
  | true =>
    simp only [emit, hv, if_true] at h
    cases hp : pollUntil Poll.viewerIsFinished s.answers.viewerIsFinished with
    | error f => simp [hp] at h
    | ok v =>
      obtain ⟨rest, pevs⟩ := v
      have hpe := pollUntil_events _ _ _ _ hp
      simp only [hp] at h
      split at h
      · simp at h
      · rename_i lm lc gba evs hw
        obtain ⟨hfin, hpoll⟩ := waitWorkers_events _ _ _ _ _ _ _ hw
        refine ⟨[Event.lmRequestFinish, Event.lcRequestFinish, Event.viewerRequestFinish] ++ pevs,
          evs, { s.answers with viewerIsFinished := rest, lmIsFinished := lm, lcIsFinished := lc,
                                lcIsRunningGBA := gba }, ?_, hpoll, hfin, ?_⟩
        · intro e he
          simp only [List.mem_append, List.mem_cons, List.mem_singleton, List.mem_nil_iff,
            or_false] at he
          rcases he with (rfl | rfl | rfl) | he
          · rfl
          · rfl
          · rfl
          · obtain ⟨b, rfl⟩ := hpe e he
            rfl
        · simpa using h

/-- C5: whenever `Shutdown` returns, its log since the call ends with the round of
polls in which Local Mapping answered finished, Loop Closing answered finished
and `isRunningGBA` answered false, followed only by calls that are not polls
(the rebinding of the rendering context and the persistence): the wait loop is
left on such a round and on no other, in particular never on a round in which
`isRunningGBA` answered true. -/
theorem C5_shutdown_leaves_wait_on_final_round (s t : System) (h : Shutdown s = Except.ok t) :
    ∃ pre post, t.log = s.log ++ pre ++ finalRound ++ post ∧ ∀ e ∈ post, isPoll e = false := by
  obtain ⟨vevs, wevs, ans, -, -, ⟨pre, rfl⟩, hp⟩ := Shutdown_decompose s t h
  obtain ⟨post, hlog, hpost⟩ := persistOnShutdown_log _ _ hp
  refine ⟨vevs ++ pre, post, ?_, hpost⟩
  rw [hlog]
  simp [List.append_assoc]

/-- C5, instance: both workers finished at every poll and `isRunningGBA` answering
true, true, true, false.  `Shutdown` returns; it has taken all four answers,
and the fourth, false, comes before `SaveMap` in its log. -/
theorem C5_shutdown_leaves_wait_on_final_round_witness :
    (∃ t, Shutdown mapped = Except.ok t ∧ t.answers.lcIsRunningGBA = [] ∧
      t.log = mapped.log ++
        [Event.lmRequestFinish, Event.lcRequestFinish,
         Event.polled Poll.lmIsFinished true, Event.polled Poll.lcIsFinished true,
         Event.polled Poll.lcIsRunningGBA true,
         Event.polled Poll.lmIsFinished true, Event.polled Poll.lcIsFinished true,
         Event.polled Poll.lcIsRunningGBA true,
         Event.polled Poll.lmIsFinished true, Event.polled Poll.lcIsFinished true,
         Event.polled Poll.lcIsRunningGBA true,
         Event.polled Poll.lmIsFinished true, Event.polled Poll.lcIsFinished true,
         Event.polled Poll.lcIsRunningGBA false,
         Event.saveMap "1map.bin", Event.saveKeyFrameTrajectoryTUM "1KeyFrameTrajectory.txt"]) ∧
    ∃ t pre post, Shutdown mapped = Except.ok t ∧
      t.log = mapped.log ++ pre ++ finalRound ++ post ∧ ∀ e ∈ post, isPoll e = false := by
  refine ⟨⟨_, rfl, rfl, rfl⟩, ?_⟩
  obtain ⟨t, ht⟩ : ∃ t, Shutdown mapped = Except.ok t := ⟨_, rfl⟩
  obtain ⟨pre, post, hlog, hpost⟩ := C5_shutdown_leaves_wait_on_final_round mapped t ht
  exact ⟨t, pre, post, ht, hlog, hpost⟩

/-! ## C6 and C7: persistence at shutdown -/

/-- The last part of `Shutdown`: when it returns, the persistence actions are those
of `shutdownWrites`, and what the persistence decision reads is left as it was. -/
theorem persistOnShutdown_writes (s t : System) (h : persistOnShutdown s = Except.ok t) :
    persistActions t.log = persistActions s.log ++ shutdownWrites s ∧
    t.is_save_map = s.is_save_map ∧ t.mpTracker = s.mpTracker ∧ t.mpMap = s.mpMap ∧
    t.fileName = s.fileName ∧ t.numOfMaps = s.numOfMaps ∧ t.mpViewer = s.mpViewer := by
  unfold persistOnShutdown at h
  cases hv : s.mpViewer.isSome <;> cases hs : s.is_save_map <;>
    cases hm : s.mpTracker.mbOnlyTracking <;> cases hk : s.mpMap.mspKeyFrames.isEmpty <;>
    cases hw : s.writable s.fileName <;>
    simp [hv, hs, hm, hk, hw, emit, SaveMap, SaveKeyFrameTrajectoryTUM] at h <;>
    subst h <;>
    simp_all [persistActions, shutdownWrites, isPersistEvent, List.filter_append]

/-- Persistence actions of `Shutdown`: those of `shutdownWrites` in the state it is
called in; what the persistence decision reads is left as it was. -/
theorem Shutdown_writes (s t : System) (h : Shutdown s = Except.ok t) :
    persistActions t.log = persistActions s.log ++ shutdownWrites s ∧
    shutdownWrites t = shutdownWrites s := by
  obtain ⟨vevs, wevs, ans, hv, hw, -, hp⟩ := Shutdown_decompose s t h
  obtain ⟨h1, h2, h3, h4, h5, h6, -⟩ := persistOnShutdown_writes _ _ hp
  have hvf : vevs.filter isPersistEvent = [] := by
    rw [List.filter_eq_nil_iff]
    intro e he
    simp [hv e he]
  have hwf : wevs.filter isPersistEvent = [] := by
    rw [List.filter_eq_nil_iff]
    intro e he
    simp [isPersistEvent_of_isPoll e (hw e he)]
  constructor
  · rw [h1]
    simp [persistActions, shutdownWrites, List.filter_append, hvf, hwf]
  · simp only [shutdownWrites, h2, h3, h4, h5, h6]

/-- `LoadMap` does not touch the member `is_save_map`. -/
theorem LoadMap_is_save_map (sq : ℚ → ℚ) (s t : System) (f : String) (b : Bool)
    (h : LoadMap sq s f = Except.ok (b, t)) : t.is_save_map = s.is_save_map := by
  unfold LoadMap at h
  split at h
  · simp only [Except.ok.injEq, Prod.mk.injEq] at h
    obtain ⟨-, rfl⟩ := h
    rfl
  · dsimp only at h
    split at h
    · simp at h
    · simp only [Except.ok.injEq, Prod.mk.injEq] at h
      obtain ⟨-, rfl⟩ := h
      rfl

/-- The constructor sets the member `is_save_map` whatever the argument. -/
theorem construct_is_save_map (sq : ℚ → ℚ) (env : Env) (voc settings : String)
    (sensor : eSensor) (viewer saveArg : Bool) (s : System)
    (h : construct sq env voc settings sensor viewer saveArg = Except.ok s) :
    s.is_save_map = true := by
  simp only [construct] at h
  split_ifs at h
  all_goals first
    | (simp only [Except.ok.injEq] at h; subst h; rfl)
    | (split at h
       · simp at h
       · rename_i s1 hl
         have hk := LoadMap_is_save_map _ _ _ _ _ hl
         simp only [Except.ok.injEq] at h
         subst h
         exact hk
       · rename_i s1 hl
         have hk := LoadMap_is_save_map _ _ _ _ _ hl
         simp only [Except.ok.injEq] at h
         subst h
         exact hk)

/-- C6 (the code at the failing input): a stereo system constructed with the
persistence switch off, `is_save_map_ = false`, on a map file holding one
keyframe.  It is in full SLAM mode with that keyframe in its map, the member
`is_save_map` is set all the same, and `Shutdown` saves the map and exports the
keyframe trajectory. -/
theorem C6_persistence_switch_ignored :
    ∃ s t, construct Rat.sqrt savedEnv "voc.txt" "settings.yaml" eSensor.STEREO false false
        = Except.ok s ∧
      s.is_save_map = true ∧ s.mpTracker.mbOnlyTracking = false ∧
      s.mpMap.mspKeyFrames = [0] ∧
      Shutdown s = Except.ok t ∧
      persistActions t.log =
        [Event.saveMap "1map.bin", Event.saveKeyFrameTrajectoryTUM "1KeyFrameTrajectory.txt"] :=
  ⟨_, _, rfl, rfl, rfl, rfl, rfl, by decide⟩

/-- C7 (as stated, refuted): two calls of `Shutdown` on a stereo system in full SLAM
mode with one keyframe.  The first saves the map and the keyframe trajectory;
the second saves both again. -/
theorem C7_second_shutdown_counterexample :
    ∃ t u, Shutdown mappedIdle = Except.ok t ∧ Shutdown t = Except.ok u ∧
      persistActions t.log =
        [Event.saveMap "1map.bin", Event.saveKeyFrameTrajectoryTUM "1KeyFrameTrajectory.txt"] ∧
      persistActions u.log =
        [Event.saveMap "1map.bin", Event.saveKeyFrameTrajectoryTUM "1KeyFrameTrajectory.txt",
         Event.saveMap "1map.bin", Event.saveKeyFrameTrajectoryTUM "1KeyFrameTrajectory.txt"] :=
  ⟨_, _, rfl, rfl, by decide, by decide⟩

/-- `Shutdown` returns when the viewer, if there is one, eventually answers
finished, both workers answer finished and no global optimisation is running at
the first poll, and the map file can be written. -/
theorem Shutdown_returns (s : System)
    (hview : s.mpViewer = none ∨ true ∈ s.answers.viewerIsFinished)
    (hlm : ∃ r, s.answers.lmIsFinished = true :: r)
    (hlc : ∃ r, s.answers.lcIsFinished = true :: r)
    (hgba : ∃ r, s.answers.lcIsRunningGBA = false :: r)
    (hw : s.writable s.fileName = true) : ∃ t, Shutdown s = Except.ok t := by
  obtain ⟨lm, hlm⟩ := hlm
  obtain ⟨lc, hlc⟩ := hlc
  obtain ⟨gba, hgba⟩ := hgba
  have hpersist : ∀ a : System, a.writable a.fileName = true →
      ∃ t, persistOnShutdown a = Except.ok t := by
    intro a ha
    unfold persistOnShutdown
    cases hv : a.mpViewer.isSome <;> cases hs : a.is_save_map <;>
      cases hm : a.mpTracker.mbOnlyTracking <;> cases hk : a.mpMap.mspKeyFrames.isEmpty <;>
      simp [hv, hs, hm, hk, ha, emit, SaveMap, SaveKeyFrameTrajectoryTUM]
  unfold Shutdown
  dsimp only
  cases hv : s.mpViewer.isSome with
  | false =>
    simp only [emit, hv, Bool.false_eq_true, if_false, hlm, hlc, hgba, waitWorkers]
    exact hpersist _ hw
  | true =>
    have hmem : true ∈ s.answers.viewerIsFinished := by
      rcases hview with h | h
      · simp [h] at hv
      · exact h
    obtain ⟨rest, evs, hp⟩ := pollUntil_ok Poll.viewerIsFinished _ hmem
    simp only [emit, hv, if_true, hp, hlm, hlc, hgba, waitWorkers]
    exact hpersist _ hw

/-- C7 (amended): `Shutdown` has no guard against a second call.  After a first
call has returned, a second call made while the workers still answer finished
(and the viewer, if any, answers finished, and the map file can be written)
returns as well and performs the persistence actions of the first once more:
`SaveMap` and `SaveKeyFrameTrajectoryTUM` again when the first ran them, nothing
when it ran nothing.  The persistence actions of "Shutdown; Shutdown" are those
of one `Shutdown` twice over. -/
theorem C7_second_shutdown_repeats (s t : System) (h1 : Shutdown s = Except.ok t)
    (hview : t.mpViewer = none ∨ true ∈ t.answers.viewerIsFinished)
    (hlm : ∃ r, t.answers.lmIsFinished = true :: r)
    (hlc : ∃ r, t.answers.lcIsFinished = true :: r)
    (hgba : ∃ r, t.answers.lcIsRunningGBA = false :: r)
    (hw : t.writable t.fileName = true) :
    ∃ u, Shutdown t = Except.ok u ∧
      persistActions t.log = persistActions s.log ++ shutdownWrites s ∧
      persistActions u.log = persistActions s.log ++ shutdownWrites s ++ shutdownWrites s := by
  obtain ⟨u, h2⟩ := Shutdown_returns t hview hlm hlc hgba hw
  obtain ⟨a, b⟩ := Shutdown_writes s t h1
  obtain ⟨c, -⟩ := Shutdown_writes t u h2
  exact ⟨u, h2, a, by rw [c, a, b]⟩

/-- C7 (amended), instance: two calls of `Shutdown` on the stereo example system
with one keyframe. -/
theorem C7_second_shutdown_repeats_witness :
    ∃ u, Shutdown shutDownOnce = Except.ok u ∧
      persistActions shutDownOnce.log =
        persistActions mappedIdle.log ++ shutdownWrites mappedIdle ∧
      persistActions u.log =
        persistActions mappedIdle.log ++ shutdownWrites mappedIdle ++ shutdownWrites mappedIdle :=
  C7_second_shutdown_repeats mappedIdle shutDownOnce rfl (Or.inl rfl) ⟨_, rfl⟩ ⟨_, rfl⟩
    ⟨_, rfl⟩ rfl

/-! ## C8 and C9: `LoadMap` -/

/-- The running maximum of `LoadMap` is at least its start value and at least every
`mnFrameId` in the list. -/
theorem foldl_maxFrameId_ge (m : Map) (l : List Nat) (acc : Nat) :
    acc ≤ l.foldl (fun acc p => if (m.store p).mnFrameId > acc then (m.store p).mnFrameId
      else acc) acc ∧
    ∀ p ∈ l, (m.store p).mnFrameId ≤ l.foldl (fun acc p =>
      if (m.store p).mnFrameId > acc then (m.store p).mnFrameId else acc) acc := by
  induction l generalizing acc with
  | nil => simp
  | cons x l ih =>
    simp only [List.foldl_cons, List.mem_cons, forall_eq_or_imp]
    obtain ⟨h1, h2⟩ := ih (if (m.store x).mnFrameId > acc then (m.store x).mnFrameId else acc)
    refine ⟨?_, ?_, h2⟩
    · refine le_trans ?_ h1
      split_ifs with h
      · exact le_of_lt h
      · exact le_refl _
    · refine le_trans ?_ h1
      split_ifs with h
      · exact le_refl _
      · exact not_lt.mp h

/-- The running maximum of `LoadMap` is its start value or the `mnFrameId` of a
keyframe in the list. -/
theorem foldl_maxFrameId_mem (m : Map) (l : List Nat) (acc : Nat) :
    l.foldl (fun acc p => if (m.store p).mnFrameId > acc then (m.store p).mnFrameId
      else acc) acc = acc ∨
    ∃ p ∈ l, (m.store p).mnFrameId = l.foldl (fun acc p =>
      if (m.store p).mnFrameId > acc then (m.store p).mnFrameId else acc) acc := by
  induction l generalizing acc with
  | nil => simp
  | cons x l ih =>
    simp only [List.foldl_cons, List.mem_cons, exists_eq_or_imp]
    rcases ih (if (m.store x).mnFrameId > acc then (m.store x).mnFrameId else acc) with h | h
    · rw [h]
      split_ifs with hx
      · exact Or.inr (Or.inl rfl)
      · exact Or.inl rfl
    · exact Or.inr (Or.inr h)

/-- After a successful `LoadMap` of a map with a keyframe, `Frame::nNextId` is the
largest `mnFrameId` in the loaded map: no persisted id is larger, and a
persisted keyframe has exactly this id. -/
theorem LoadMap_nNextId (sq : ℚ → ℚ) (s t : System) (f : String)
    (h : LoadMap sq s f = Except.ok (true, t)) :
    ∃ map db, s.disk f = some (map, db) ∧ map.mspKeyFrames ≠ [] ∧
      (∀ p ∈ map.mspKeyFrames, (map.store p).mnFrameId ≤ t.nNextId) ∧
      ∃ p ∈ map.mspKeyFrames, (map.store p).mnFrameId = t.nNextId := by
  unfold LoadMap at h
  split at h
  · simp at h
  · rename_i map db hd
    dsimp only at h
    split at h
    · simp at h
    · rename_i p hl
      simp only [Except.ok.injEq, Prod.mk.injEq, true_and] at h
      subst h
      have hperm : ∀ q, q ∈ sortById map map.mspKeyFrames ↔ q ∈ map.mspKeyFrames := fun q =>
        (List.perm_insertionSort _ _).mem_iff
      have hne : map.mspKeyFrames ≠ [] := by
        intro he
        rw [he] at hl
        simp [sortById] at hl
      refine ⟨map, db, hd, hne, ?_, ?_⟩
      · intro q hq
        exact (foldl_maxFrameId_ge map _ 0).2 q ((hperm q).mpr hq)
      · rcases foldl_maxFrameId_mem map (sortById map map.mspKeyFrames) 0 with h0 | ⟨q, hq, he⟩
        · obtain ⟨q, hq⟩ := List.exists_mem_of_ne_nil _ hne
          refine ⟨q, hq, ?_⟩
          have := (foldl_maxFrameId_ge map _ 0).2 q ((hperm q).mpr hq)
          simp only [maxFrameId]
          omega
        · exact ⟨q, (hperm q).mp hq, he⟩

/-- C8 (the code at the failing input): the system is constructed on a map file
whose single keyframe was created from frame 7.  `LoadMap` succeeds and leaves
`Frame::nNextId` at 7, the persisted id itself, not at 8. -/
theorem C8_next_frame_id_is_max :
    ∃ s, construct Rat.sqrt savedEnv "voc.txt" "settings.yaml" eSensor.STEREO false true
        = Except.ok s ∧
      s.mpMap.mspKeyFrames = [0] ∧ (s.mpMap.store 0).mnFrameId = 7 ∧ s.nNextId = 7 :=
  ⟨_, rfl, rfl, rfl, by decide⟩

/-- Sorting by creation id depends on the creation ids only. -/
theorem sortById_congr (m1 m2 : Map) (l : List Nat)
    (h : ∀ a, (m1.store a).mnId = (m2.store a).mnId) : sortById m1 l = sortById m2 l := by
  have hins : ∀ (x : Nat) (xs : List Nat),
      List.orderedInsert (fun a b => (m1.store a).mnId ≤ (m1.store b).mnId) x xs =
      List.orderedInsert (fun a b => (m2.store a).mnId ≤ (m2.store b).mnId) x xs := by
    intro x xs
    induction xs with
    | nil => rfl
    | cons y ys ih => simp only [List.orderedInsert, h, ih]
  induction l with
  | nil => rfl
  | cons x xs ih =>
    simp only [sortById, List.insertionSort] at ih ⊢
    rw [ih, hins]

/-- What a successful `LoadMap` leaves in the orchestrator. -/
theorem LoadMap_success (sq : ℚ → ℚ) (s t : System) (f : String)
    (h : LoadMap sq s f = Except.ok (true, t)) :
    ∃ map db p, s.disk f = some (map, db) ∧
      (sortById map map.mspKeyFrames).getLast? = some p ∧
      t.mpMap.mspKeyFrames = map.mspKeyFrames ∧
      (∀ a, (t.mpMap.store a).mnId = (map.store a).mnId) ∧
      t.distLoad = translationNorm sq (map.store p).Tcw := by
  unfold LoadMap at h
  split at h
  · simp at h
  · rename_i map db hd
    dsimp only at h
    split at h
    · simp at h
    · rename_i p hl
      simp only [Except.ok.injEq, Prod.mk.injEq, true_and] at h
      subst h
      refine ⟨map, db, p, hd, hl, rfl, ?_, rfl⟩
      intro a
      dsimp only
      split_ifs <;> rfl

/-- Round trip for a session with at least one keyframe: `LoadMap` of the file
written by `SaveMap` succeeds, the loaded map has the keyframe ids of the
original in the same ascending order, and the recorded extent is the extent of
the original map. -/
theorem SaveMap_LoadMap_roundtrip (sq : ℚ → ℚ) (s t : System) (f : String)
    (hsave : SaveMap s f = Except.ok t) (hne : s.mpMap.mspKeyFrames ≠ []) :
    ∃ u, LoadMap sq t f = Except.ok (true, u) ∧ sortedIds u.mpMap = sortedIds s.mpMap ∧
      some u.distLoad = recordedExtent sq s.mpMap := by
  unfold SaveMap at hsave
  split at hsave
  · simp only [Except.ok.injEq] at hsave
    subst hsave
    rcases LoadMap_outcome sq { s with
        disk := fun g => if g = f then some (s.mpMap, s.mpKeyFrameDatabase) else s.disk g,
        log := s.log ++ [Event.saveMap f] } f with
      ⟨hd, -⟩ | ⟨map, db, hd, hempty, -⟩ | ⟨map, db, u, -, -, hl⟩
    · simp at hd
    · simp only [if_true, Option.some.injEq, Prod.mk.injEq] at hd
      obtain ⟨rfl, -⟩ := hd
      exact absurd hempty hne
    · obtain ⟨map2, db2, p, hd, hlast, hk, hid, hdist⟩ := LoadMap_success sq _ u f hl
      simp only [if_true, Option.some.injEq, Prod.mk.injEq] at hd
      obtain ⟨rfl, -⟩ := hd
      refine ⟨u, hl, ?_, ?_⟩
      · simp only [sortedIds, hk, sortById_congr u.mpMap s.mpMap _ hid, hid]
      · simp [recordedExtent, hlast, hdist]
  · simp at hsave

/-- C9 (the code at the failing input): `Reset()` on the freshly constructed
monocular system, whose map is empty, followed by one frame.  The frame calls
`SaveMap` on the file of segment 1; `LoadMap` of that file then reads the pose
of `vpKFS[index-1]` with no keyframe in the vector, and so does a later
construction on that file. -/
theorem C9_empty_session_does_not_load :
    ∃ r t, TrackMonocular Rat.sqrt (demo eSensor.MONOCULAR).Reset noPose = Except.ok (r, t) ∧
      Event.saveMap "1map.bin" ∈ t.log ∧
      (t.disk "1map.bin").map (fun file => file.1.mspKeyFrames) = some [] ∧
      LoadMap Rat.sqrt t "1map.bin" = Except.error Fault.undefined ∧
      construct Rat.sqrt { demoEnv with disk := t.disk } "voc.txt" "settings.yaml"
        eSensor.MONOCULAR false true = Except.error Fault.undefined :=
  ⟨_, _, rfl, by decide, rfl, rfl, rfl⟩

/-! ## C10: number of lines of the per-frame exports -/

/-- The walk to a live keyframe returns when the budget of loop tests exceeds the
number of parent links to follow. -/
theorem walkToLive_ok (m : Map) (p k : Nat) (h : ReachesLive m p k) :
    ∀ fuel, k < fuel → ∀ Trw, ∃ q T, walkToLive m fuel p Trw = Except.ok (q, T) := by
  induction h with
  | live p hl =>
    intro fuel hf Trw
    obtain ⟨n, rfl⟩ : ∃ n, fuel = n + 1 := ⟨fuel - 1, by omega⟩
    exact ⟨p, Trw, by simp [walkToLive, hl]⟩
  | up p q k hbad hparent _ ih =>
    intro fuel hf Trw
    obtain ⟨n, rfl⟩ : ∃ n, fuel = n + 1 := ⟨fuel - 1, by omega⟩
    obtain ⟨r, T, hr⟩ := ih n (by omega) (Trw * (m.store p).mTcp)
    exact ⟨r, T, by simp [walkToLive, hbad, hparent, hr]⟩

/-- The pose of a frame is produced when its reference keyframe reaches a live
keyframe within the budget. -/
theorem framePose_ok (m : Map) (fuel : Nat) (Two lit : Pose) (r k : Nat)
    (h : ReachesLive m r k) (hk : k < fuel) : ∃ T, framePose m fuel Two lit r = Except.ok T := by
  obtain ⟨q, T, hw⟩ := walkToLive_ok m r k h fuel hk 1
  exact ⟨lit * (T * (m.store q).Tcw * Two), by simp only [framePose, hw]⟩

/-- One budget of loop tests serves all reference keyframes of a frame history. -/
theorem reachesLive_bound (m : Map) (refs : List Nat)
    (h : ∀ r ∈ refs, ∃ k, ReachesLive m r k) :
    ∃ N, ∀ r ∈ refs, ∃ k, k < N ∧ ReachesLive m r k := by
  induction refs with
  | nil => exact ⟨0, by simp⟩
  | cons x xs ih =>
    obtain ⟨N, hN⟩ := ih (fun r hr => h r (List.mem_cons_of_mem _ hr))
    obtain ⟨k, hk⟩ := h x (List.mem_cons_self _ _)
    refine ⟨max N (k + 1), ?_⟩
    intro r hr
    rcases List.mem_cons.mp hr with rfl | hr
    · exact ⟨k, by omega, hk⟩
    · obtain ⟨j, hj, hr2⟩ := hN r hr
      exact ⟨j, by omega, hr2⟩

/-- The loop of `SaveTrajectoryTUM` emits one line per frame that is not flagged
lost. -/
theorem tumLoop_length (toQ : Matrix (Fin 3) (Fin 3) ℚ → List ℚ) (m : Map) (fuel : Nat)
    (Two : Pose) (poses : List Pose) (refs : List Nat) (times : List ℚ) (lost : List Bool)
    (hr : refs.length = poses.length) (ht : times.length = poses.length)
    (hl : lost.length = poses.length)
    (hlive : ∀ r ∈ refs, ∃ k, k < fuel ∧ ReachesLive m r k) :
    ∃ lines, tumLoop toQ m fuel Two poses refs times lost = Except.ok lines ∧
      lines.length = poses.length - lost.count true := by
  induction poses generalizing refs times lost with
  | nil => exact ⟨[], by simp [tumLoop]⟩
  | cons lit poses ih =>
    obtain ⟨r, refs, rfl⟩ : ∃ r rs, refs = r :: rs := by
      cases refs with
      | nil => simp at hr
      | cons r rs => exact ⟨r, rs, rfl⟩
    obtain ⟨t, times, rfl⟩ : ∃ t ts, times = t :: ts := by
      cases times with
      | nil => simp at ht
      | cons t ts => exact ⟨t, ts, rfl⟩
    obtain ⟨b, lost, rfl⟩ : ∃ b bs, lost = b :: bs := by
      cases lost with
      | nil => simp at hl
      | cons b bs => exact ⟨b, bs, rfl⟩
    simp only [List.length_cons, add_left_inj] at hr ht hl
    obtain ⟨lines, hlines, hlen⟩ := ih refs times lost hr ht hl
      (fun x hx => hlive x (List.mem_cons_of_mem _ hx))
    have hcount : lost.count true ≤ poses.length := hl ▸ List.count_le_length _ _
    cases b with
    | true =>
      refine ⟨lines, by simp [tumLoop, hlines], ?_⟩
      simp only [List.length_cons, List.count_cons_self]
      omega
    | false =>
      obtain ⟨k, hk, hreach⟩ := hlive r (List.mem_cons_self _ _)
      obtain ⟨T, hT⟩ := framePose_ok m fuel Two lit r k hreach hk
      refine ⟨{ time := t, twc := cameraCentre T, q := toQ (rotationTransposed T) } :: lines,
        by simp [tumLoop, hlines, hT], ?_⟩
      simp only [List.length_cons, hlen]
      rw [List.count_cons_of_ne (by decide)]
      omega

/-- The loop of `SaveTrajectoryKITTI` emits one line per frame. -/
theorem kittiLoop_length (m : Map) (fuel : Nat) (Two : Pose) (poses : List Pose)
    (refs : List Nat) (times : List ℚ)
    (hr : refs.length = poses.length) (ht : times.length = poses.length)
    (hlive : ∀ r ∈ refs, ∃ k, k < fuel ∧ ReachesLive m r k) :
    ∃ lines, kittiLoop m fuel Two poses refs times = Except.ok lines ∧
      lines.length = poses.length := by
  induction poses generalizing refs times with
  | nil => exact ⟨[], by simp [kittiLoop]⟩
  | cons lit poses ih =>
    obtain ⟨r, refs, rfl⟩ : ∃ r rs, refs = r :: rs := by
      cases refs with
      | nil => simp at hr
      | cons r rs => exact ⟨r, rs, rfl⟩
    obtain ⟨t, times, rfl⟩ : ∃ t ts, times = t :: ts := by
      cases times with
      | nil => simp at ht
      | cons t ts => exact ⟨t, ts, rfl⟩
    simp only [List.length_cons, add_left_inj] at hr ht
    obtain ⟨lines, hlines, hlen⟩ := ih refs times hr ht
      (fun x hx => hlive x (List.mem_cons_of_mem _ hx))
    obtain ⟨k, hk, hreach⟩ := hlive r (List.mem_cons_self _ _)
    obtain ⟨T, hT⟩ := framePose_ok m fuel Two lit r k hreach hk
    exact ⟨{ Rwc := rotationTransposed T, twc := cameraCentre T } :: lines,
      by simp [kittiLoop, hlines, hT], by simp [hlen]⟩

/-- C10 (as stated, refuted): a monocular system with one keyframe and a history of
one frame, not lost, whose reference keyframe is live.  Both exports return at
the sensor check, before the output file is opened: no line is written, where
the claim has one line each. -/
theorem C10_monocular_counterexample :
    (oneFrame eSensor.MONOCULAR).mpTracker.mlRelativeFramePoses.length = 1 ∧
    (oneFrame eSensor.MONOCULAR).mpTracker.mlpReferences = [0] ∧
    (oneFrame eSensor.MONOCULAR).mpTracker.mlFrameTimes.length = 1 ∧
    (oneFrame eSensor.MONOCULAR).mpTracker.mlbLost = [false] ∧
    ReachesLive (oneFrame eSensor.MONOCULAR).mpMap 0 0 ∧
    SaveTrajectoryTUM (fun _ => []) 1 (oneFrame eSensor.MONOCULAR) = Except.ok none ∧
    SaveTrajectoryKITTI 1 (oneFrame eSensor.MONOCULAR) = Except.ok none :=
  ⟨rfl, rfl, rfl, rfl, ReachesLive.live 0 rfl, rfl, rfl⟩

/-- C10 (amended): let the four lists of the frame history have the same length `n`
and let every reference keyframe reach a live keyframe through parent links.
With a monocular sensor both exports write nothing.  With a stereo or RGB-D
sensor and a map that holds at least one keyframe, given a budget of loop tests
that covers the longest walk, `SaveTrajectoryTUM` writes exactly `n` minus the
number of frames flagged lost lines and `SaveTrajectoryKITTI` writes exactly
`n` lines. -/
theorem C10_trajectory_line_counts (toQ : Matrix (Fin 3) (Fin 3) ℚ → List ℚ) (s : System)
    (n : Nat)
    (hposes : s.mpTracker.mlRelativeFramePoses.length = n)
    (hrefs : s.mpTracker.mlpReferences.length = n)
    (htimes : s.mpTracker.mlFrameTimes.length = n)
    (hlost : s.mpTracker.mlbLost.length = n)
    (hlive : ∀ r ∈ s.mpTracker.mlpReferences, ∃ k, ReachesLive s.mpMap r k) :
    (s.mSensor = eSensor.MONOCULAR →
      ∀ fuel, SaveTrajectoryTUM toQ fuel s = Except.ok none ∧
        SaveTrajectoryKITTI fuel s = Except.ok none) ∧
    (s.mSensor ≠ eSensor.MONOCULAR → s.mpMap.mspKeyFrames ≠ [] →
      ∃ fuel0, ∀ fuel, fuel0 ≤ fuel →
        (∃ lines, SaveTrajectoryTUM toQ fuel s = Except.ok (some lines) ∧
          lines.length = n - s.mpTracker.mlbLost.count true) ∧
        (∃ lines, SaveTrajectoryKITTI fuel s = Except.ok (some lines) ∧
          lines.length = n)) := by
  constructor
  · intro hm fuel
    simp [SaveTrajectoryTUM, SaveTrajectoryKITTI, hm]
  · intro hm hne
    obtain ⟨N, hN⟩ := reachesLive_bound s.mpMap _ hlive
    refine ⟨N, fun fuel hf => ?_⟩
    have hlive2 : ∀ r ∈ s.mpTracker.mlpReferences, ∃ k, k < fuel ∧ ReachesLive s.mpMap r k := by
      intro r hr
      obtain ⟨k, hk, h⟩ := hN r hr
      exact ⟨k, by omega, h⟩
    obtain ⟨first, hfirst⟩ : ∃ p, (sortById s.mpMap s.mpMap.mspKeyFrames).head? = some p := by
      cases hh : (sortById s.mpMap s.mpMap.mspKeyFrames).head? with
      | none => exact absurd ((sortById_eq_nil _ _).mp (List.head?_eq_none_iff.mp hh)) hne
      | some p => exact ⟨p, rfl⟩
    constructor
    · obtain ⟨lines, hl, hlen⟩ := tumLoop_length toQ s.mpMap fuel (s.mpMap.store first).Twc
        _ _ _ _ (hrefs.trans hposes.symm) (htimes.trans hposes.symm) (hlost.trans hposes.symm)
        hlive2
      exact ⟨lines, by simp [SaveTrajectoryTUM, hm, hfirst, hl], by rw [hlen, hposes]⟩
    · obtain ⟨lines, hl, hlen⟩ := kittiLoop_length s.mpMap fuel (s.mpMap.store first).Twc
        _ _ _ (hrefs.trans hposes.symm) (htimes.trans hposes.symm) hlive2
      exact ⟨lines, by simp [SaveTrajectoryKITTI, hm, hfirst, hl], by rw [hlen, hposes]⟩

/-- C10 (amended), instance: the stereo system with one keyframe and one frame, not
lost; both exports write one line. -/
theorem C10_trajectory_line_counts_witness :
    ∃ fuel0, ∀ fuel, fuel0 ≤ fuel →
      (∃ lines, SaveTrajectoryTUM (fun _ => []) fuel (oneFrame eSensor.STEREO)
          = Except.ok (some lines) ∧
        lines.length = 1 - (oneFrame eSensor.STEREO).mpTracker.mlbLost.count true) ∧
      (∃ lines, SaveTrajectoryKITTI fuel (oneFrame eSensor.STEREO) = Except.ok (some lines) ∧
        lines.length = 1) :=
  (C10_trajectory_line_counts (fun _ => []) (oneFrame eSensor.STEREO) 1 rfl rfl rfl rfl
    (fun r hr => ⟨0, by
      have h0 : r = 0 := by simpa [oneFrame, demo] using hr
      subst h0
      exact ReachesLive.live 0 rfl⟩)).2 (by decide) (by simp [oneFrame, oneKeyFrameMap])

/-! ## C11: the keyframe trajectory export -/

/-- The loop of `SaveKeyFrameTrajectoryTUM` writes one text line per keyframe that is
not culled, in the order of the vector. -/
theorem keyFrameLoop_lines (toQ : Matrix (Fin 3) (Fin 3) ℚ → List ℚ) (m : Map) (i : Nat)
    (l : List Nat) :
    (keyFrameLoop toQ m i l).1 =
      (l.filter (fun p => !(m.store p).mbBad)).map (fun p =>
        { time := (m.store p).mTimeStamp, t := GetCameraCenter (m.store p),
          q := toQ (rotationTransposed (m.store p).Tcw) }) := by
  induction l generalizing i with
  | nil => rfl
  | cons p l ih =>
    cases hb : (m.store p).mbBad <;> simp [keyFrameLoop, hb, ih]

/-- The loop of `SaveKeyFrameTrajectoryTUM` writes one record per keyframe that is
not culled, in the order of the vector, named after the position of the
keyframe in the vector. -/
theorem keyFrameLoop_records (toQ : Matrix (Fin 3) (Fin 3) ℚ → List ℚ) (m : Map) (i : Nat)
    (l : List Nat) :
    (keyFrameLoop toQ m i l).2 =
      ((l.enumFrom i).filter (fun jp => !(m.store jp.2).mbBad)).map (fun jp =>
        SideEntry.vector (keyFrameRecordName jp.1) (GetCameraCenter (m.store jp.2))) := by
  induction l generalizing i with
  | nil => rfl
  | cons p l ih =>
    cases hb : (m.store p).mbBad <;> simp [keyFrameLoop, hb, ih, List.enumFrom]

/-- The loop of `SaveKeyFrameTrajectoryTUM` writes only "KeyFrame<i>" records, as
many as text lines. -/
theorem keyFrameLoop_counts (toQ : Matrix (Fin 3) (Fin 3) ℚ → List ℚ) (m : Map) (i : Nat)
    (l : List Nat) :
    keyFrameRecords (keyFrameLoop toQ m i l).2 = (keyFrameLoop toQ m i l).2 ∧
    numberOfKeyFramesValues (keyFrameLoop toQ m i l).2 = [] ∧
    (keyFrameLoop toQ m i l).2.length = (l.filter (fun p => !(m.store p).mbBad)).length := by
  induction l generalizing i with
  | nil => exact ⟨rfl, rfl, rfl⟩
  | cons p l ih =>
    obtain ⟨h1, h2, h3⟩ := ih (i + 1)
    cases hb : (m.store p).mbBad
    · simp only [keyFrameRecords] at h1
      simp [keyFrameLoop, hb, keyFrameRecords, numberOfKeyFramesValues, h1, h2, h3]
    · simp only [keyFrameLoop, hb, if_true]
      exact ⟨h1, h2, by simpa [hb] using h3⟩

/-- The values under "NumberOfKeyFrames" after further entries. -/
theorem numberOfKeyFramesValues_append (xs ys : List SideEntry) :
    numberOfKeyFramesValues (xs ++ ys) =
      numberOfKeyFramesValues xs ++ numberOfKeyFramesValues ys := by
  induction xs with
  | nil => rfl
  | cons x xs ih =>
    cases x with
    | vector n v => simpa [numberOfKeyFramesValues] using ih
    | integer n v =>
      by_cases h : n = "NumberOfKeyFrames" <;> simp [numberOfKeyFramesValues, h, ih]

/-- What `SaveKeyFrameTrajectoryTUM` writes, for every map: one text line and one
"KeyFrame<i>" record per keyframe that is not culled, the lines in ascending
order of creation id; and "NumberOfKeyFrames" once, with the number of all
keyframes of the map, culled or not. -/
theorem SaveKeyFrameTrajectoryTUM_files_spec (toQ : Matrix (Fin 3) (Fin 3) ℚ → List ℚ)
    (s : System) :
    (SaveKeyFrameTrajectoryTUM_files toQ s).textLines.map (fun line => line.time) =
      (liveSorted s.mpMap).map (fun p => (s.mpMap.store p).mTimeStamp) ∧
    (SaveKeyFrameTrajectoryTUM_files toQ s).textLines.length = (liveSorted s.mpMap).length ∧
    (keyFrameRecords (SaveKeyFrameTrajectoryTUM_files toQ s).sideEntries).length =
      (liveSorted s.mpMap).length ∧
    numberOfKeyFramesValues (SaveKeyFrameTrajectoryTUM_files toQ s).sideEntries =
      [(s.mpMap.mspKeyFrames.length : Int)] := by
  obtain ⟨h1, h2, h3⟩ := keyFrameLoop_counts toQ s.mpMap 0 (sortById s.mpMap s.mpMap.mspKeyFrames)
  have hlen : (sortById s.mpMap s.mpMap.mspKeyFrames).length = s.mpMap.mspKeyFrames.length :=
    List.length_insertionSort _ _
  refine ⟨?_, ?_, ?_, ?_⟩
  · simp [SaveKeyFrameTrajectoryTUM_files, keyFrameLoop_lines, liveSorted, Function.comp_def]
  · simp [SaveKeyFrameTrajectoryTUM_files, keyFrameLoop_lines, liveSorted]
  · simp only [SaveKeyFrameTrajectoryTUM_files, keyFrameRecords, List.filter_append] at h1 ⊢
    rw [h1]
    simp [h3, liveSorted]
  · simp only [SaveKeyFrameTrajectoryTUM_files, numberOfKeyFramesValues_append, h2]
    simp [numberOfKeyFramesValues, hlen]

/-- C11 (the code at the failing input): a map whose keyframe set holds a live
keyframe and a culled one.  `SaveKeyFrameTrajectoryTUM` emits the live keyframe
only, one text line and the one record "KeyFrame0", and then writes
"NumberOfKeyFrames" with the value 2, the size of the vector, not 1. -/
theorem C11_count_includes_culled :
    liveSorted culledSystem.mpMap = [0] ∧
    (SaveKeyFrameTrajectoryTUM_files (fun _ => []) culledSystem).textLines.length = 1 ∧
    (keyFrameRecords
      (SaveKeyFrameTrajectoryTUM_files (fun _ => []) culledSystem).sideEntries).length = 1 ∧
    numberOfKeyFramesValues
      (SaveKeyFrameTrajectoryTUM_files (fun _ => []) culledSystem).sideEntries = [2] :=
  ⟨by decide, by decide, by decide, by decide⟩

/-! ## C12: pose reconstruction in the per-frame exports -/

/-- The walk along a parent chain of `m` culled keyframes: it needs `m + 1` loop
tests, that is `m` passes through the loop body, and then stands on the live
keyframe with the transforms of the chain multiplied onto `Trw` from the
right, in chain order. -/
theorem walkToLive_chain (m : Map) (chain : List Nat) (pKF live : Nat)
    (h : parentChain m pKF chain live) (fuel : Nat) (Trw : Pose) :
    walkToLive m fuel pKF Trw =
      if chain.length < fuel then Except.ok (live, Trw * chainTransform m chain)
      else Except.error Fault.blocked := by
  induction chain generalizing pKF fuel Trw with
  | nil =>
    obtain ⟨rfl, hl⟩ := h
    cases fuel with
    | zero => simp [walkToLive]
    | succ n => simp [walkToLive, hl, chainTransform]
  | cons k ks ih =>
    obtain ⟨rfl, hb, parent, hp, hrest⟩ := h
    cases fuel with
    | zero => simp [walkToLive]
    | succ n =>
      simp only [walkToLive, hb, if_true, hp, ih parent hrest n, List.length_cons,
        add_lt_add_iff_right]
      simp [chainTransform, Matrix.mul_assoc]

/-- The pose computed for a frame whose reference keyframe has the given parent
chain, once the budget of loop tests exceeds the length of the chain. -/
theorem framePose_chain (m : Map) (chain : List Nat) (pKF live : Nat)
    (h : parentChain m pKF chain live) (fuel : Nat) (hf : chain.length < fuel)
    (Two lit : Pose) :
    framePose m fuel Two lit pKF =
      Except.ok (lit * chainTransform m chain * (m.store live).Tcw * Two) := by
  simp only [framePose, walkToLive_chain m chain pKF live h fuel 1, if_pos hf, one_mul,
    Matrix.mul_assoc]

/-- Composition of poses with identity rotation adds the translations. -/
theorem poseAt_mul (a b c d e f : ℚ) :
    poseAt a b c * poseAt d e f = poseAt (a + d) (b + e) (c + f) := by
  ext i j
  fin_cases i <;> fin_cases j <;> simp [poseAt, Matrix.mul_apply, Fin.sum_univ_four] <;> ring

/-- The loop of `SaveTrajectoryKITTI` writes, for each frame in order, the line of
the pose reconstructed along the parent chain of its reference keyframe. -/
theorem kittiLoop_poses (m : Map) (fuel : Nat) (Two : Pose) (poses : List Pose)
    (refs : List Nat) (times : List ℚ) (chains : List (List Nat × Nat))
    (ht : times.length = poses.length)
    (hc : List.Forall₂ (fun r c => parentChain m r c.1 c.2 ∧ c.1.length < fuel) refs chains)
    (hr : refs.length = poses.length) :
    kittiLoop m fuel Two poses refs times =
      Except.ok (List.zipWith (fun lit c =>
        { Rwc := rotationTransposed (lit * chainTransform m c.1 * (m.store c.2).Tcw * Two),
          twc := cameraCentre (lit * chainTransform m c.1 * (m.store c.2).Tcw * Two) })
        poses chains) := by
  induction hc generalizing poses times with
  | nil =>
    cases poses with
    | nil => rfl
    | cons lit poses => simp at hr
  | @cons r c refs chains hrc _ ih =>
    cases poses with
    | nil => simp at hr
    | cons lit poses =>
      cases times with
      | nil => simp at ht
      | cons t times =>
        simp only [List.length_cons, add_left_inj] at hr ht
        simp only [kittiLoop, framePose_chain m c.1 r c.2 hrc.1 fuel hrc.2, ih poses times ht hr,
          List.zipWith_cons_cons]

/-- The loop of `SaveTrajectoryTUM` writes, for each frame not flagged lost, in
order, the line of the pose reconstructed along the parent chain of its
reference keyframe. -/
theorem tumLoop_poses (toQ : Matrix (Fin 3) (Fin 3) ℚ → List ℚ) (m : Map) (fuel : Nat)
    (Two : Pose) (poses : List Pose) (refs : List Nat) (times : List ℚ) (lost : List Bool)
    (chains : List (List Nat × Nat))
    (ht : times.length = poses.length) (hl : lost.length = poses.length)
    (hc : List.Forall₂ (fun r c => parentChain m r c.1 c.2 ∧ c.1.length < fuel) refs chains)
    (hr : refs.length = poses.length) :
    tumLoop toQ m fuel Two poses refs times lost =
      Except.ok (((poses.zip (chains.zip (times.zip lost))).filter (fun x => !x.2.2.2)).map
        (fun x =>
          { time := x.2.2.1,
            twc := cameraCentre (x.1 * chainTransform m x.2.1.1 * (m.store x.2.1.2).Tcw * Two),
            q := toQ (rotationTransposed
              (x.1 * chainTransform m x.2.1.1 * (m.store x.2.1.2).Tcw * Two)) })) := by
  induction hc generalizing poses times lost with
  | nil =>
    cases poses with
    | nil => rfl
    | cons lit poses => simp at hr
  | @cons r c refs chains hrc _ ih =>
    cases poses with
    | nil => simp at hr
    | cons lit poses =>
      cases times with
      | nil => simp at ht
      | cons t times =>
        cases lost with
        | nil => simp at hl
        | cons b lost =>
          simp only [List.length_cons, add_left_inj] at hr ht hl
          cases b with
          | true => simp [tumLoop, ih poses times lost ht hl hr]
          | false =>
            simp [tumLoop, framePose_chain m c.1 r c.2 hrc.1 fuel hrc.2,
              ih poses times lost ht hl hr]

/-- C12 (as stated, refuted): the stereo system on `culledMap`, one frame with
relative pose at translation (0, 0, 2) whose reference keyframe 1 is culled,
with parent-relative transform at translation (1, 0, 0) and live parent 0 at
translation (3, 4, 0).  The pose claimed, relative pose times transform times
parent pose, has translation (4, 4, 2).  The pose reconstructed by the walk has
translation (1, 0, 2), and the line written by `SaveTrajectoryKITTI` has the
camera centre of that pose: the product is also multiplied by the inverse pose
`Two` of the first keyframe. -/
theorem C12_missing_origin_transform_counterexample :
    parentChain culledMap 1 [1] 0 ∧
    poseAt 0 0 2 * chainTransform culledMap [1] * (culledMap.store 0).Tcw = poseAt 4 4 2 ∧
    framePose culledMap 2 (culledMap.store 0).Twc (poseAt 0 0 2) 1 = Except.ok (poseAt 1 0 2) ∧
    SaveTrajectoryKITTI 2 culledSystem = Except.ok (some
      [{ Rwc := rotationTransposed (poseAt 1 0 2), twc := cameraCentre (poseAt 1 0 2) }]) ∧
    poseAt 1 0 2 ≠ poseAt 4 4 2 := by
  have hchain : parentChain culledMap 1 [1] 0 := ⟨rfl, rfl, 0, rfl, rfl, rfl⟩
  have hprod : chainTransform culledMap [1] = poseAt 1 0 0 := by
    simp [chainTransform, culledMap, keyFrame9]
  have hTcw : (culledMap.store 0).Tcw = poseAt 3 4 0 := rfl
  have hTwc : (culledMap.store 0).Twc = poseAt (-3) (-4) 0 := rfl
  have hpose : framePose culledMap 2 (culledMap.store 0).Twc (poseAt 0 0 2) 1
      = Except.ok (poseAt 1 0 2) := by
    rw [framePose_chain culledMap [1] 1 0 hchain 2 (by decide), hprod, hTcw, hTwc,
      poseAt_mul, poseAt_mul, poseAt_mul]
    norm_num
  refine ⟨hchain, ?_, hpose, ?_, ?_⟩
  · rw [hprod, hTcw, poseAt_mul, poseAt_mul]
    norm_num
  · have hhead : (sortById culledMap culledMap.mspKeyFrames).head? = some 0 := by
      decide
    have hs : culledSystem.mSensor ≠ eSensor.MONOCULAR := by decide
    have hstore : (culledSystem.mpMap.store 0).Twc = (culledMap.store 0).Twc := rfl
    have hposes : culledSystem.mpTracker.mlRelativeFramePoses = [poseAt 0 0 2] := rfl
    have hrefs : culledSystem.mpTracker.mlpReferences = [1] := rfl
    have htimes : culledSystem.mpTracker.mlFrameTimes = [1] := rfl
    have hmap : culledSystem.mpMap = culledMap := rfl
    simp only [SaveTrajectoryKITTI, if_neg hs, hhead, hposes, hrefs, htimes, kittiLoop, hmap,
      hpose]
  · intro h
    have h03 := congrFun (congrFun h 0) 3
    simp [poseAt] at h03

/-- The first keyframe of the vector sorted by `KeyFrame::lId` is a keyframe of the
map with the lowest creation id. -/
theorem sortById_head_lowest (m : Map) (l : List Nat) (first : Nat)
    (h : (sortById m l).head? = some first) :
    first ∈ l ∧ ∀ p ∈ l, (m.store first).mnId ≤ (m.store p).mnId := by
  haveI : IsTotal Nat (fun a b => (m.store a).mnId ≤ (m.store b).mnId) :=
    ⟨fun a b => Nat.le_total _ _⟩
  haveI : IsTrans Nat (fun a b => (m.store a).mnId ≤ (m.store b).mnId) :=
    ⟨fun a b c hab hbc => Nat.le_trans hab hbc⟩
  have hsorted := List.sorted_insertionSort (fun a b => (m.store a).mnId ≤ (m.store b).mnId) l
  have hperm : ∀ q, q ∈ sortById m l ↔ q ∈ l := fun q => (List.perm_insertionSort _ _).mem_iff
  cases hl : sortById m l with
  | nil => simp [hl] at h
  | cons x xs =>
    simp only [hl, List.head?_cons, Option.some.injEq] at h
    subst h
    simp only [sortById] at hl
    rw [hl] at hsorted
    refine ⟨(hperm x).mp (by simp [sortById, hl]), fun p hp => ?_⟩
    have hp2 : p ∈ x :: xs := by
      have := (hperm p).mpr hp
      simpa [sortById, hl] using this
    rcases List.mem_cons.mp hp2 with rfl | hp3
    · exact le_refl _
    · exact List.rel_of_sorted_cons hsorted p hp3

/-- C12 (amended): for a stereo or RGB-D system whose map has a keyframe, let every
reference keyframe `k0` of the frame history have a parent chain `k0, ..., km`
in which `k0, ..., k(m-1)` are culled and `km` is the first live keyframe, and
let the budget of loop tests exceed every chain (an empty chain is a live
reference keyframe).  Then, with `first` the head of the keyframe vector sorted
by creation id, a keyframe of lowest creation id in the map, and `Two` its
stored inverse pose:
each walk returns exactly when it is given more than `m` loop tests, that is
after `m` steps, standing on `km` with the product of the parent-relative
transforms; `SaveTrajectoryKITTI` writes for every frame, in order, the line of
the pose `relativePose * mTcp(k0) * ... * mTcp(k(m-1)) * pose(km) * Two`; and
`SaveTrajectoryTUM` writes the line of the same pose for every frame not
flagged lost. -/
theorem C12_reconstructed_pose (toQ : Matrix (Fin 3) (Fin 3) ℚ → List ℚ) (s : System)
    (fuel : Nat) (chains : List (List Nat × Nat))
    (hs : s.mSensor ≠ eSensor.MONOCULAR)
    (hne : s.mpMap.mspKeyFrames ≠ [])
    (hr : s.mpTracker.mlpReferences.length = s.mpTracker.mlRelativeFramePoses.length)
    (ht : s.mpTracker.mlFrameTimes.length = s.mpTracker.mlRelativeFramePoses.length)
    (hl : s.mpTracker.mlbLost.length = s.mpTracker.mlRelativeFramePoses.length)
    (hc : List.Forall₂ (fun r c => parentChain s.mpMap r c.1 c.2 ∧ c.1.length < fuel)
      s.mpTracker.mlpReferences chains) :
    ∃ first, (sortById s.mpMap s.mpMap.mspKeyFrames).head? = some first ∧
      first ∈ s.mpMap.mspKeyFrames ∧
      (∀ p ∈ s.mpMap.mspKeyFrames, (s.mpMap.store first).mnId ≤ (s.mpMap.store p).mnId) ∧
      (∀ rc ∈ s.mpTracker.mlpReferences.zip chains, ∀ budget,
        walkToLive s.mpMap budget rc.1 1 =
          if rc.2.1.length < budget then Except.ok (rc.2.2, chainTransform s.mpMap rc.2.1)
          else Except.error Fault.blocked) ∧
      SaveTrajectoryKITTI fuel s = Except.ok (some
        (List.zipWith (fun lit c =>
          { Rwc := rotationTransposed
              (reconstructedPose s.mpMap (s.mpMap.store first).Twc lit c),
            twc := cameraCentre
              (reconstructedPose s.mpMap (s.mpMap.store first).Twc lit c) })
          s.mpTracker.mlRelativeFramePoses chains)) ∧
      SaveTrajectoryTUM toQ fuel s = Except.ok (some
        (((s.mpTracker.mlRelativeFramePoses.zip
            (chains.zip (s.mpTracker.mlFrameTimes.zip s.mpTracker.mlbLost))).filter
            (fun x => !x.2.2.2)).map
          (fun x =>
            { time := x.2.2.1,
              twc := cameraCentre
                (reconstructedPose s.mpMap (s.mpMap.store first).Twc x.1 x.2.1),
              q := toQ (rotationTransposed
                (reconstructedPose s.mpMap (s.mpMap.store first).Twc x.1 x.2.1)) }))) := by
  obtain ⟨first, hfirst⟩ : ∃ p, (sortById s.mpMap s.mpMap.mspKeyFrames).head? = some p := by
    cases hh : (sortById s.mpMap s.mpMap.mspKeyFrames).head? with
    | none => exact absurd ((sortById_eq_nil _ _).mp (List.head?_eq_none_iff.mp hh)) hne
    | some p => exact ⟨p, rfl⟩
  obtain ⟨hmem, hlow⟩ := sortById_head_lowest s.mpMap _ first hfirst
  refine ⟨first, hfirst, hmem, hlow, ?_, ?_, ?_⟩
  · intro rc hrc budget
    obtain ⟨hchain, -⟩ := List.forall₂_zip hc hrc
    rw [walkToLive_chain s.mpMap rc.2.1 rc.1 rc.2.2 hchain budget 1, one_mul]
  · simp only [SaveTrajectoryKITTI, if_neg hs, hfirst,
      kittiLoop_poses s.mpMap fuel (s.mpMap.store first).Twc _ _ _ chains ht hc hr]
    rfl
  · simp only [SaveTrajectoryTUM, if_neg hs, hfirst,
      tumLoop_poses toQ s.mpMap fuel (s.mpMap.store first).Twc _ _ _ _ chains ht hl hc hr]
    rfl

/-- C12 (amended), instance: the stereo system on `culledMap`, whose one frame has
the culled reference keyframe 1 with live parent 0; the walk takes one step and
both exports write the line of the pose multiplied by the inverse pose of
keyframe 0. -/
theorem C12_reconstructed_pose_witness :
    ∃ first, (sortById culledSystem.mpMap culledSystem.mpMap.mspKeyFrames).head? = some first ∧
      first ∈ culledSystem.mpMap.mspKeyFrames ∧
      (∀ p ∈ culledSystem.mpMap.mspKeyFrames,
        (culledSystem.mpMap.store first).mnId ≤ (culledSystem.mpMap.store p).mnId) ∧
      (∀ rc ∈ culledSystem.mpTracker.mlpReferences.zip [(([1] : List Nat), 0)], ∀ budget,
        walkToLive culledSystem.mpMap budget rc.1 1 =
          if rc.2.1.length < budget then
            Except.ok (rc.2.2, chainTransform culledSystem.mpMap rc.2.1)
          else Except.error Fault.blocked) ∧
      SaveTrajectoryKITTI 2 culledSystem = Except.ok (some
        (List.zipWith (fun lit c =>
          { Rwc := rotationTransposed
              (reconstructedPose culledSystem.mpMap (culledSystem.mpMap.store first).Twc lit c),
            twc := cameraCentre
              (reconstructedPose culledSystem.mpMap (culledSystem.mpMap.store first).Twc lit c) })
          culledSystem.mpTracker.mlRelativeFramePoses [(([1] : List Nat), 0)])) ∧
      SaveTrajectoryTUM (fun _ => []) 2 culledSystem = Except.ok (some
        (((culledSystem.mpTracker.mlRelativeFramePoses.zip
            ([(([1] : List Nat), 0)].zip
              (culledSystem.mpTracker.mlFrameTimes.zip culledSystem.mpTracker.mlbLost))).filter
            (fun x => !x.2.2.2)).map
          (fun x =>
            { time := x.2.2.1,
              twc := cameraCentre
                (reconstructedPose culledSystem.mpMap (culledSystem.mpMap.store first).Twc
                  x.1 x.2.1),
              q := (fun _ => []) (rotationTransposed
                (reconstructedPose culledSystem.mpMap (culledSystem.mpMap.store first).Twc
                  x.1 x.2.1)) }))) :=
  C12_reconstructed_pose (fun _ => []) culledSystem 2 [([1], 0)] (by decide) (by decide)
    rfl rfl rfl
    (List.Forall₂.cons ⟨⟨rfl, rfl, 0, rfl, rfl, rfl⟩, by decide⟩ List.Forall₂.nil)

end System

end ORB_SLAM2
